import Mathlib

/-!
Verification of the Tool-Activity Classification & Handoff Synthesis Engine
(`src/utils/markdown.ts` of the cli-continues repository).

The definitions below are a shallow embedding of the TypeScript source:
JavaScript strings become `String`, arrays become `List`, optional fields
become `Option`, and JavaScript truthiness tests on strings / numbers are
made explicit (`optTruthy` / `natTruthy`: the empty string and the number 0
are falsy).  `Array.prototype.sort` (guaranteed stable since ES2019) is
modelled by the stable `List.insertionSort`.  Imperative `push` loops become
list appends / folds in the same order as the source.
-/

-- ── JavaScript-truthiness helpers ───────────────────────────────────────────

/-- Truthiness of an optional JS string: `undefined` and `""` are falsy. -/
def optTruthy : Option String → Bool
  | none => false
  | some s => !(s == "")

/-- Truthiness of an optional JS number (`Nat`-valued): `undefined` and `0` are falsy. -/
def natTruthy : Option Nat → Bool
  | none => false
  | some n => !(n == 0)

/-- Split the (reversed) digit list of a number into groups of three,
used to model `Number.prototype.toLocaleString`. -/
def chunk3 : List Char → List (List Char)
  | [] => []
  | a :: b :: c :: rest => [a, b, c] :: chunk3 rest
  | l => [l]

/-- Model of `Number.prototype.toLocaleString()` for naturals: decimal digits
grouped by thousands with `,` separators (en-US grouping). -/
def toLocaleString (n : Nat) : String :=
  String.mk ((List.intercalate [','] (chunk3 (toString n).data.reverse)).reverse)

/-- Model of `Math.round(ms / 60000)` for a non-negative `ms`:
`Math.round x = ⌊x + 1/2⌋` for positive `x`. -/
def roundMinutes (ms : Nat) : Nat := (ms + 30000) / 60000

-- ── Display Caps (src: `DisplayCaps`, `INLINE_CAPS`, `REFERENCE_CAPS`) ──────

structure DisplayCaps where
  shellDetailed : Nat
  shellStdoutLines : Nat
  writeEditDetailed : Nat
  writeEditDiffLines : Nat
  readEntries : Nat
  grepGlobSearchFetch : Nat
  mcpTaskAsk : Nat
deriving DecidableEq

def INLINE_CAPS : DisplayCaps :=
  { shellDetailed := 5
    shellStdoutLines := 3
    writeEditDetailed := 3
    writeEditDiffLines := 50
    readEntries := 15
    grepGlobSearchFetch := 8
    mcpTaskAsk := 3 }

def REFERENCE_CAPS : DisplayCaps :=
  { shellDetailed := 8
    shellStdoutLines := 5
    writeEditDetailed := 5
    writeEditDiffLines := 200
    readEntries := 20
    grepGlobSearchFetch := 10
    mcpTaskAsk := 5 }

/-- `mode === 'reference' ? REFERENCE_CAPS : INLINE_CAPS` — the runtime view of
the display-cap profile selection (the TypeScript parameter type restricts
`mode` to `'inline' | 'reference'` statically; at runtime any non-`"reference"`
value takes the `else` branch). -/
def capsForMode (mode : String) : DisplayCaps :=
  if mode == "reference" then REFERENCE_CAPS else INLINE_CAPS

-- ── Data model (src: `types/index.ts`, as consumed by `markdown.ts`) ────────

structure DiffStats where
  added : Nat
  removed : Nat
deriving DecidableEq

/-- `StructuredToolSample` — the tagged union keyed by category; each variant
carries only the fields the corresponding renderer reads. -/
inductive StructuredToolSample where
  | shell (command : String) (exitCode : Option Int) (errored : Bool)
      (stdoutTail : Option String) (errorMessage : Option String)
  | write (filePath : String) (isNewFile : Bool) (diff : Option String)
      (diffStats : Option DiffStats)
  | edit (filePath : String) (diff : Option String) (diffStats : Option DiffStats)
  | readF (filePath : String) (lineStart : Option Nat) (lineEnd : Option Nat)
  | grep (pattern : String) (targetPath : Option String) (matchCount : Option Nat)
  | glob (pattern : String) (resultCount : Option Nat)
  | search (query : String) (resultCount : Option Nat)
  | fetch (url : String) (resultPreview : Option String)
  | task (description : String) (agentType : Option String) (resultSummary : Option String)
  | ask (question : String)
  | mcp (toolName : String) (params : Option String) (result : Option String)
deriving DecidableEq

/-- The `category` discriminator string of a structured sample. -/
def StructuredToolSample.category : StructuredToolSample → String
  | .shell .. => "shell"
  | .write .. => "write"
  | .edit .. => "edit"
  | .readF .. => "read"
  | .grep .. => "grep"
  | .glob .. => "glob"
  | .search .. => "search"
  | .fetch .. => "fetch"
  | .task .. => "task"
  | .ask .. => "ask"
  | .mcp .. => "mcp"

structure ToolSample where
  summary : String
  data : Option StructuredToolSample := none
deriving DecidableEq

structure ToolUsageSummary where
  name : String
  count : Nat
  errorCount : Option Nat := none
  samples : List ToolSample
deriving DecidableEq

structure TokenUsage where
  input : Nat
  output : Nat
deriving DecidableEq

structure CacheTokens where
  cacheRead : Nat
  creation : Nat
deriving DecidableEq

structure SessionNotes where
  model : Option String := none
  tokenUsage : Option TokenUsage := none
  cacheTokens : Option CacheTokens := none
  thinkingTokens : Option Nat := none
  activeTimeMs : Option Nat := none
  reasoning : Option (List String) := none
  compactSummary : Option String := none
deriving DecidableEq

inductive MessageRole where
  | user
  | assistant
deriving DecidableEq

structure ConversationMessage where
  role : MessageRole
  content : String
deriving DecidableEq

/-- `UnifiedSession`, restricted to the fields `generateHandoffMarkdown`
reads.  `updatedAtIso` stands for the already-computed
`session.updatedAt.toISOString()` string. -/
structure UnifiedSession where
  id : String
  source : String
  cwd : String
  repo : Option String := none
  branch : Option String := none
  model : Option String := none
  summary : Option String := none
  updatedAtIso : String
deriving DecidableEq

-- ── Canonical tool-name sets and classifier ─────────────────────────────────

/-- Modelled from the spec: the fixed category-defining sets of known tool
identifiers exported by the module `types/tool-names.ts`, which is absent from
the provided sources (only its importers are present).  The spec fixes the
eleven sets (shell, write, edit, read, grep, glob, search, fetch, task,
task-output, ask) but not their members, so they are abstract here. -/
structure ToolNameSets where
  SHELL_TOOLS : List String
  WRITE_TOOLS : List String
  EDIT_TOOLS : List String
  READ_TOOLS : List String
  GREP_TOOLS : List String
  GLOB_TOOLS : List String
  SEARCH_TOOLS : List String
  FETCH_TOOLS : List String
  TASK_TOOLS : List String
  TASK_OUTPUT_TOOLS : List String
  ASK_TOOLS : List String

/-- Modelled from the spec: `classifyToolName` from the missing module
`types/tool-names.ts` — "a canonical name-based classifier built from fixed
category-defining sets of known tool identifiers"; it returns the category of
a set containing the name, and nothing (falsy) when no set matches. -/
def classifyToolName (ts : ToolNameSets) (name : String) : Option String :=
  if ts.SHELL_TOOLS.contains name then some "shell"
  else if ts.WRITE_TOOLS.contains name then some "write"
  else if ts.EDIT_TOOLS.contains name then some "edit"
  else if ts.READ_TOOLS.contains name then some "read"
  else if ts.GREP_TOOLS.contains name then some "grep"
  else if ts.GLOB_TOOLS.contains name then some "glob"
  else if ts.SEARCH_TOOLS.contains name then some "search"
  else if ts.FETCH_TOOLS.contains name then some "fetch"
  else if ts.TASK_TOOLS.contains name then some "task"
  else if ts.TASK_OUTPUT_TOOLS.contains name then some "task-output"
  else if ts.ASK_TOOLS.contains name then some "ask"
  else none

/-- The `[set, priority]` mapping of `buildCategoryOrder`, flattened to
`(name, priority)` pairs in iteration order (later assignments overwrite
earlier ones, as in the source's `order[name] = priority`). -/
def categoryOrderPairs (ts : ToolNameSets) : List (String × Nat) :=
  (ts.SHELL_TOOLS.map (fun n => (n, 0)))
    ++ (ts.WRITE_TOOLS.map (fun n => (n, 1)))
    ++ (ts.EDIT_TOOLS.map (fun n => (n, 2)))
    ++ (ts.READ_TOOLS.map (fun n => (n, 3)))
    ++ (ts.GREP_TOOLS.map (fun n => (n, 4)))
    ++ (ts.GLOB_TOOLS.map (fun n => (n, 5)))
    ++ (ts.SEARCH_TOOLS.map (fun n => (n, 6)))
    ++ (ts.FETCH_TOOLS.map (fun n => (n, 7)))
    ++ (ts.TASK_TOOLS.map (fun n => (n, 8)))
    ++ (ts.TASK_OUTPUT_TOOLS.map (fun n => (n, 8)))
    ++ (ts.ASK_TOOLS.map (fun n => (n, 9)))

/-- `buildCategoryOrder` — the sort-order map: last assignment wins. -/
def buildCategoryOrder (ts : ToolNameSets) (name : String) : Option Nat :=
  (categoryOrderPairs ts).foldl
    (fun acc kv => if kv.1 == name then some kv.2 else acc) none

/-- `getCategoryOrder` — `CATEGORY_ORDER[name] ?? 10` (MCP/unknown go last). -/
def getCategoryOrder (ts : ToolNameSets) (name : String) : Nat :=
  (buildCategoryOrder ts name).getD 10

/-- `detectCategory` — first sample's structured category when present,
otherwise `classifyToolName(tool.name) || 'mcp'`. -/
def detectCategory (ts : ToolNameSets) (tool : ToolUsageSummary) : String :=
  match tool.samples.head? with
  | some s =>
    match s.data with
    | some d => d.category
    | none => (classifyToolName ts tool.name).getD "mcp"
  | none => (classifyToolName ts tool.name).getD "mcp"

-- ── JS string primitives ────────────────────────────────────────────────────

/-- `String.prototype.startsWith`, on the underlying character lists. -/
def jsStartsWith (s pre : String) : Bool :=
  pre.data.isPrefixOf s.data

/-- Left-to-right, non-overlapping split of a character list at a (non-empty)
separator, with a structural fuel argument so the kernel can evaluate it
(`fuel ≥ l.length` makes the fuel-exhausted arm unreachable). -/
def splitFuel (sep : List Char) : Nat → List Char → List (List Char)
  | _, [] => [[]]
  | 0, l => [l]
  | fuel + 1, c :: rest =>
    if sep.isPrefixOf (c :: rest) && !sep.isEmpty then
      [] :: splitFuel sep fuel ((c :: rest).drop sep.length)
    else
      match splitFuel sep fuel rest with
      | [] => [[c]]
      | h :: t => (c :: h) :: t

/-- `String.prototype.split(sep)` for a non-empty separator (the only shape
the source uses: `'\n'` and `'__'`). -/
def jsSplit (s sep : String) : List String :=
  (splitFuel sep.data s.data.length s.data).map String.mk

-- ── Shell renderer ──────────────────────────────────────────────────────────

/-- `renderShellSample` — one detailed shell block. -/
def renderShellSample (sample : ToolSample) (maxStdoutLines : Nat) : List String :=
  match sample.data with
  | some (.shell command exitCode errored stdoutTail errorMessage) =>
    let lines := ["> `$ " ++ command ++ "`"]
    let lines := match exitCode with
      | some ec =>
        lines ++ ["> Exit: " ++ toString ec ++ (if errored then "  **[ERROR]**" else "")]
      | none => lines
    let lines :=
      if optTruthy stdoutTail then
        lines ++ ["> ```"]
          ++ ((jsSplit (stdoutTail.getD "") "\n").take maxStdoutLines).map
              (fun tl => "> " ++ tl)
          ++ ["> ```"]
      else if errored && optTruthy errorMessage then
        lines ++ ["> ```"]
          ++ ((jsSplit (errorMessage.getD "") "\n").take maxStdoutLines).map
              (fun el => "> " ++ el)
          ++ ["> ```"]
      else lines
    lines ++ [""]
  | _ => ["> `" ++ sample.summary ++ "`", ""]

/-- Error-count suffix of a section heading: `, N errors` when `errorCount` is
truthy (present and non-zero). -/
def errorStrOf (tool : ToolUsageSummary) : String :=
  if natTruthy tool.errorCount then
    ", " ++ toString (tool.errorCount.getD 0) ++ " errors"
  else ""

/-- `renderShellSection`.  The source computes
`remaining = tool.count - detailed.length` in JS number arithmetic and emits
the overflow line iff `remaining > 0`, i.e. iff `detailed.length < count`;
the natural-number subtraction below agrees on that branch. -/
def renderShellSection (tool : ToolUsageSummary) (caps : DisplayCaps) : List String :=
  let detailed := tool.samples.take caps.shellDetailed
  ["### Shell (" ++ toString tool.count ++ " calls" ++ errorStrOf tool ++ ")", ""]
    ++ detailed.flatMap (fun sample => renderShellSample sample caps.shellStdoutLines)
    ++ (if detailed.length < tool.count then
          ["*...and " ++ toString (tool.count - detailed.length) ++ " more shell calls"
              ++ (if !(natTruthy tool.errorCount) then " (all exit 0)" else "") ++ "*",
            ""]
        else [])

-- ── Write renderer ──────────────────────────────────────────────────────────

/-- ` (+A -R)` diff-stats suffix used in write/edit overflow file lists. -/
def diffStatsSuffix : Option DiffStats → String
  | some st => " (+" ++ toString st.added ++ " -" ++ toString st.removed ++ ")"
  | none => ""

/-- `renderWriteSample` — one detailed write block. -/
def renderWriteSample (sample : ToolSample) (maxDiffLines : Nat) : List String :=
  match sample.data with
  | some (.write filePath isNewFile diff diffStats) =>
    let lines := ["> **`" ++ filePath ++ "`**"
      ++ (if isNewFile then " (new file)" else "")
      ++ (match diffStats with
          | some st => " (+" ++ toString st.added ++ " lines)"
          | none => "")]
    let lines :=
      if optTruthy diff then
        let bodyLines := (jsSplit (diff.getD "") "\n").filter
          (fun l => !(jsStartsWith l "---" || jsStartsWith l "+++"))
        let capped := bodyLines.take maxDiffLines
        let withDiff := lines ++ ["> ```diff"] ++ capped.map (fun dl => "> " ++ dl) ++ ["> ```"]
        if 0 < bodyLines.length - capped.length then
          withDiff ++ ["> *+" ++ toString (bodyLines.length - capped.length) ++ " lines truncated*"]
        else withDiff
      else lines
    lines ++ [""]
  | _ => ["> `" ++ sample.summary ++ "`", ""]

/-- `renderWriteSection`. -/
def renderWriteSection (tool : ToolUsageSummary) (caps : DisplayCaps) : List String :=
  let detailed := tool.samples.take caps.writeEditDetailed
  let overflow := (tool.samples.drop caps.writeEditDetailed).filterMap
    (fun sample => match sample.data with
      | some (.write filePath _ _ diffStats) =>
        some ("`" ++ filePath ++ "`" ++ diffStatsSuffix diffStats)
      | _ => none)
  ["### Write (" ++ toString tool.count ++ " calls" ++ errorStrOf tool ++ ")", ""]
    ++ detailed.flatMap (fun sample => renderWriteSample sample caps.writeEditDiffLines)
    ++ (if detailed.length < tool.count then
          ["*...and " ++ toString (tool.count - detailed.length) ++ " more writes"
              ++ (if 0 < overflow.length then ": " ++ String.intercalate ", " overflow else "")
              ++ "*",
            ""]
        else [])

-- ── Edit renderer ───────────────────────────────────────────────────────────

/-- `renderEditSample` — one detailed edit block. -/
def renderEditSample (sample : ToolSample) (maxDiffLines : Nat) : List String :=
  match sample.data with
  | some (.edit filePath diff diffStats) =>
    let lines := ["> **`" ++ filePath ++ "`**"
      ++ (match diffStats with
          | some st => " (+" ++ toString st.added ++ " -" ++ toString st.removed ++ " lines)"
          | none => "")]
    let lines :=
      if optTruthy diff then
        let bodyLines := (jsSplit (diff.getD "") "\n").filter
          (fun l => !(jsStartsWith l "---" || jsStartsWith l "+++"))
        let capped := bodyLines.take maxDiffLines
        let withDiff := lines ++ ["> ```diff"] ++ capped.map (fun dl => "> " ++ dl) ++ ["> ```"]
        if 0 < bodyLines.length - capped.length then
          withDiff ++ ["> *+" ++ toString (bodyLines.length - capped.length) ++ " lines truncated*"]
        else withDiff
      else lines
    lines ++ [""]
  | _ => ["> `" ++ sample.summary ++ "`", ""]

/-- `renderEditSection`. -/
def renderEditSection (tool : ToolUsageSummary) (caps : DisplayCaps) : List String :=
  let detailed := tool.samples.take caps.writeEditDetailed
  let overflow := (tool.samples.drop caps.writeEditDetailed).filterMap
    (fun sample => match sample.data with
      | some (.edit filePath _ diffStats) =>
        some ("`" ++ filePath ++ "`" ++ diffStatsSuffix diffStats)
      | _ => none)
  ["### Edit (" ++ toString tool.count ++ " calls" ++ errorStrOf tool ++ ")", ""]
    ++ detailed.flatMap (fun sample => renderEditSample sample caps.writeEditDiffLines)
    ++ (if detailed.length < tool.count then
          ["*...and " ++ toString (tool.count - detailed.length) ++ " more edits"
              ++ (if 0 < overflow.length then ": " ++ String.intercalate ", " overflow else "")
              ++ "*",
            ""]
        else [])

-- ── Read renderer ───────────────────────────────────────────────────────────

/-- One bullet of the read section. -/
def renderReadEntry (sample : ToolSample) : String :=
  match sample.data with
  | some (.readF filePath lineStart lineEnd) =>
    let range :=
      if natTruthy lineStart && natTruthy lineEnd then
        " (lines " ++ toString (lineStart.getD 0) ++ "-" ++ toString (lineEnd.getD 0) ++ ")"
      else if natTruthy lineStart then
        " (from line " ++ toString (lineStart.getD 0) ++ ")"
      else ""
    "- `" ++ filePath ++ "`" ++ range
  | _ => "- `" ++ sample.summary ++ "`"

/-- `renderReadSection`. -/
def renderReadSection (tool : ToolUsageSummary) (caps : DisplayCaps) : List String :=
  let shown := tool.samples.take caps.readEntries
  ["### Read (" ++ toString tool.count ++ " calls" ++ errorStrOf tool ++ ")", ""]
    ++ shown.map renderReadEntry
    ++ (if shown.length < tool.count then
          ["- *...and " ++ toString (tool.count - shown.length) ++ " more files read*"]
        else [])
    ++ [""]

-- ── Grep renderer ───────────────────────────────────────────────────────────

/-- One bullet of the grep section. -/
def renderGrepEntry (sample : ToolSample) : String :=
  match sample.data with
  | some (.grep pattern targetPath matchCount) =>
    let path := if optTruthy targetPath then " in `" ++ targetPath.getD "" ++ "`" else ""
    let cnt := match matchCount with
      | some c => " — " ++ toString c ++ " matches"
      | none => ""
    "- `\"" ++ pattern ++ "\"`" ++ path ++ cnt
  | _ => "- `" ++ sample.summary ++ "`"

/-- `renderGrepSection`. -/
def renderGrepSection (tool : ToolUsageSummary) (caps : DisplayCaps) : List String :=
  let shown := tool.samples.take caps.grepGlobSearchFetch
  ["### Grep (" ++ toString tool.count ++ " calls" ++ errorStrOf tool ++ ")", ""]
    ++ shown.map renderGrepEntry
    ++ (if shown.length < tool.count then
          ["- *...and " ++ toString (tool.count - shown.length) ++ " more grep searches*"]
        else [])
    ++ [""]

-- ── Glob renderer ───────────────────────────────────────────────────────────

/-- One bullet of the glob section. -/
def renderGlobEntry (sample : ToolSample) : String :=
  match sample.data with
  | some (.glob pattern resultCount) =>
    let cnt := match resultCount with
      | some c => " — " ++ toString c ++ " files"
      | none => ""
    "- `" ++ pattern ++ "`" ++ cnt
  | _ => "- `" ++ sample.summary ++ "`"

/-- `renderGlobSection`. -/
def renderGlobSection (tool : ToolUsageSummary) (caps : DisplayCaps) : List String :=
  let shown := tool.samples.take caps.grepGlobSearchFetch
  ["### Glob (" ++ toString tool.count ++ " calls" ++ errorStrOf tool ++ ")", ""]
    ++ shown.map renderGlobEntry
    ++ (if shown.length < tool.count then
          ["- *...and " ++ toString (tool.count - shown.length) ++ " more glob calls*"]
        else [])
    ++ [""]

-- ── Compact renderer (search / fetch / task / ask / mcp) ────────────────────

/-- `COMPACT_LABELS[category] || tool.name`. -/
def compactLabel (category toolName : String) : String :=
  if category == "search" then "Search"
  else if category == "fetch" then "Fetch"
  else if category == "task" then "Task"
  else if category == "ask" then "Ask"
  else if category == "mcp" then "MCP"
  else toolName

/-- `formatCompactSample` — switches on the sample's own structured category. -/
def formatCompactSample (sample : ToolSample) : String :=
  match sample.data with
  | none => "`" ++ sample.summary ++ "`"
  | some d =>
    match d with
    | .search query resultCount =>
      let cnt := match resultCount with
        | some c => " — " ++ toString c ++ " results"
        | none => ""
      "\"" ++ query ++ "\"" ++ cnt
    | .fetch url resultPreview =>
      let preview := if optTruthy resultPreview then
          " — \"" ++ resultPreview.getD "" ++ "...\""
        else ""
      "`" ++ url ++ "`" ++ preview
    | .task description agentType resultSummary =>
      let agentStr := if optTruthy agentType then
          " (type: `" ++ agentType.getD "" ++ "`)"
        else ""
      let resultStr := if optTruthy resultSummary then
          " — \"" ++ resultSummary.getD "" ++ "\""
        else ""
      "\"" ++ description ++ "\"" ++ agentStr ++ resultStr
    | .ask question => "\"" ++ question ++ "\""
    | .mcp toolName params result =>
      let paramsStr := if optTruthy params then "(" ++ params.getD "" ++ ")" else ""
      let resultStr := if optTruthy result then " — \"" ++ result.getD "" ++ "\"" else ""
      "`" ++ toolName ++ paramsStr ++ "`" ++ resultStr
    | _ => "`" ++ sample.summary ++ "`"

/-- `renderCompactSection`. -/
def renderCompactSection (tool : ToolUsageSummary) (category : String)
    (caps : DisplayCaps) : List String :=
  let cap := if category == "search" || category == "fetch" then
      caps.grepGlobSearchFetch
    else caps.mcpTaskAsk
  let shown := tool.samples.take cap
  ["### " ++ compactLabel category tool.name ++ " (" ++ toString tool.count
      ++ " calls" ++ errorStrOf tool ++ ")", ""]
    ++ shown.map (fun sample => "- " ++ formatCompactSample sample)
    ++ (if shown.length < tool.count then
          ["- *...and " ++ toString (tool.count - shown.length) ++ " more*"]
        else [])
    ++ [""]

-- ── Fallback renderer ───────────────────────────────────────────────────────

/-- `renderFallbackSection` — raw summaries for up to 5 samples, then
`remaining = count - Math.min(samples.length, 5)`. -/
def renderFallbackSection (tool : ToolUsageSummary) : List String :=
  ["### " ++ tool.name ++ " (" ++ toString tool.count ++ " calls)", ""]
    ++ (tool.samples.take 5).map (fun sample => "- `" ++ sample.summary ++ "`")
    ++ (if min tool.samples.length 5 < tool.count then
          ["- *...and " ++ toString (tool.count - min tool.samples.length 5) ++ " more*"]
        else [])
    ++ [""]

-- ── MCP namespace grouping (src: `groupMcpByNamespace`) ─────────────────────

/-- Max samples to keep per grouped MCP namespace (`MCP_GROUP_SAMPLE_CAP`). -/
def MCP_GROUP_SAMPLE_CAP : Nat := 5

/-- `parts[1]` of `tool.name.split('__')` — the extracted namespace. -/
def nsOf (tool : ToolUsageSummary) : String :=
  ((jsSplit tool.name "__")[1]?).getD ""

/-- A summary is bucketed (rather than passed through) iff its detected
category is `mcp`, its name starts with `mcp__`, and `name.split('__')` has at
least 3 parts. -/
def isGroupCandidate (ts : ToolNameSets) (tool : ToolUsageSummary) : Bool :=
  detectCategory ts tool == "mcp" && jsStartsWith tool.name "mcp__"
    && decide (3 ≤ (jsSplit tool.name "__").length)

/-- Insertion-ordered multimap update: `nsGroups.get(ns)!.push(tool)`,
creating the bucket at the end on first sight of `ns`. -/
def nsInsert (m : List (String × List ToolUsageSummary)) (ns : String)
    (tool : ToolUsageSummary) : List (String × List ToolUsageSummary) :=
  match m with
  | [] => [(ns, [tool])]
  | (k, v) :: rest =>
    if k == ns then (k, v ++ [tool]) :: rest else (k, v) :: nsInsert rest ns tool

/-- State of the first loop of `groupMcpByNamespace`: the `result` array of
pass-through entries and the `nsGroups` map. -/
structure McpGroupState where
  result : List ToolUsageSummary
  nsGroups : List (String × List ToolUsageSummary)

/-- One iteration of the first loop of `groupMcpByNamespace`. -/
def groupMcpStep (ts : ToolNameSets) (st : McpGroupState)
    (tool : ToolUsageSummary) : McpGroupState :=
  if isGroupCandidate ts tool then
    { st with nsGroups := nsInsert st.nsGroups (nsOf tool) tool }
  else
    { st with result := st.result ++ [tool] }

/-- The merged synthetic aggregate for a namespace bucket of 2+ tools:
`count`/`errorCount` sums via `reduce`, samples via the capped nested
push loop. -/
def mkMergedAggregate (ns : String) (tools : List ToolUsageSummary) : ToolUsageSummary :=
  let totalErrors := tools.foldl (fun s t => s + t.errorCount.getD 0) 0
  { name := "MCP: " ++ ns
    count := tools.foldl (fun s t => s + t.count) 0
    errorCount := if 0 < totalErrors then some totalErrors else none
    samples := tools.foldl
      (fun acc t => t.samples.foldl
        (fun a s => if a.length < MCP_GROUP_SAMPLE_CAP then a ++ [s] else a) acc)
      [] }

/-- Second loop of `groupMcpByNamespace`: singleton buckets pass through,
larger buckets are merged. -/
def mergeNsBucket : String × List ToolUsageSummary → ToolUsageSummary
  | (_, [t]) => t
  | (ns, tools) => mkMergedAggregate ns tools

/-- `groupMcpByNamespace`. -/
def groupMcpByNamespace (ts : ToolNameSets)
    (summaries : List ToolUsageSummary) : List ToolUsageSummary :=
  let st := summaries.foldl (groupMcpStep ts) ⟨[], []⟩
  st.nsGroups.foldl (fun res b => res ++ [mergeNsBucket b]) st.result

/-- The `nsGroups` map alone, for stating bucket-level properties. -/
def mcpBuckets (ts : ToolNameSets) (summaries : List ToolUsageSummary) :
    List (String × List ToolUsageSummary) :=
  (summaries.foldl (groupMcpStep ts) ⟨[], []⟩).nsGroups

-- ── Tool Activity section ───────────────────────────────────────────────────

/-- Dispatch to the per-category renderer (the `switch` of
`renderToolActivity`; the `default` arm is the fallback renderer). -/
def renderSectionFor (ts : ToolNameSets) (tool : ToolUsageSummary)
    (caps : DisplayCaps) : List String :=
  let category := detectCategory ts tool
  if category == "shell" then renderShellSection tool caps
  else if category == "write" then renderWriteSection tool caps
  else if category == "edit" then renderEditSection tool caps
  else if category == "read" then renderReadSection tool caps
  else if category == "grep" then renderGrepSection tool caps
  else if category == "glob" then renderGlobSection tool caps
  else if category == "search" || category == "fetch" || category == "task"
      || category == "ask" || category == "mcp" then
    renderCompactSection tool category caps
  else renderFallbackSection tool

/-- The stable category-priority sort
`[...grouped].sort((a, b) => getCategoryOrder(a.name) - getCategoryOrder(b.name))`
(JS `Array.prototype.sort` is stable; modelled by the stable insertion sort). -/
def sortSummaries (ts : ToolNameSets) (l : List ToolUsageSummary) :
    List ToolUsageSummary :=
  List.insertionSort
    (fun a b => getCategoryOrder ts a.name ≤ getCategoryOrder ts b.name) l

/-- `renderToolActivity`: group, sort, render each aggregate, blank line after
each section. -/
def renderToolActivity (ts : ToolNameSets) (toolSummaries : List ToolUsageSummary)
    (caps : DisplayCaps) : List String :=
  (sortSummaries ts (groupMcpByNamespace ts toolSummaries)).flatMap
    (fun tool => renderSectionFor ts tool caps ++ [""])

-- ── Document assembler (src: `generateHandoffMarkdown`) ─────────────────────

/-- `labels[session.source] || session.source`.  The label map itself is built
from the adapter registry (outside this core); it is passed in as a function. -/
def sourceLabelOf (labels : String → Option String) (source : String) : String :=
  if optTruthy (labels source) then (labels source).getD "" else source

/-- The rows of the Session Overview table after the two header rows
(`| Field | Value |` / `|-------|-------|`), in emission order. -/
def overviewRows (labels : String → Option String) (session : UnifiedSession)
    (sessionNotes : Option SessionNotes) (filesModified : List String)
    (messages : List ConversationMessage) : List String :=
  ["| **Source** | " ++ sourceLabelOf labels session.source ++ " |",
    "| **Session ID** | `" ++ session.id ++ "` |",
    "| **Working Directory** | `" ++ session.cwd ++ "` |"]
    ++ (if optTruthy session.repo then
          ["| **Repository** | " ++ session.repo.getD ""
              ++ (if optTruthy session.branch then
                    " @ `" ++ session.branch.getD "" ++ "`"
                  else "")
              ++ " |"]
        else [])
    ++ (if optTruthy session.model then
          ["| **Model** | " ++ session.model.getD "" ++ " |"]
        else [])
    ++ (if optTruthy (sessionNotes.bind (fun n => n.model))
          && decide ((sessionNotes.bind (fun n => n.model)) ≠ session.model) then
          ["| **Model** | " ++ (sessionNotes.bind (fun n => n.model)).getD "" ++ " |"]
        else [])
    ++ ["| **Last Active** | "
          ++ ((session.updatedAtIso.take 16).replace "T" " ") ++ " |"]
    ++ (match sessionNotes.bind (fun n => n.tokenUsage) with
        | some tu =>
          ["| **Tokens Used** | " ++ toLocaleString tu.input ++ " in / "
              ++ toLocaleString tu.output ++ " out |"]
        | none => [])
    ++ (match sessionNotes.bind (fun n => n.cacheTokens) with
        | some ct =>
          ["| **Cache Tokens** | " ++ toLocaleString ct.cacheRead ++ " read / "
              ++ toLocaleString ct.creation ++ " created |"]
        | none => [])
    ++ (if natTruthy (sessionNotes.bind (fun n => n.thinkingTokens)) then
          ["| **Thinking Tokens** | "
              ++ toLocaleString ((sessionNotes.bind (fun n => n.thinkingTokens)).getD 0)
              ++ " |"]
        else [])
    ++ (if natTruthy (sessionNotes.bind (fun n => n.activeTimeMs)) then
          ["| **Active Time** | "
              ++ toString (roundMinutes ((sessionNotes.bind (fun n => n.activeTimeMs)).getD 0))
              ++ " min |"]
        else [])
    ++ ["| **Files Modified** | " ++ toString filesModified.length ++ " |",
        "| **Messages** | " ++ toString messages.length ++ " |"]

/-- `## Summary` block (present iff `session.summary` is truthy). -/
def summarySection (session : UnifiedSession) : List String :=
  if optTruthy session.summary then
    ["## Summary", "", "> " ++ session.summary.getD "", "", ""]
  else []

/-- `## Session Context (Compacted)` block. -/
def compactSection (sessionNotes : Option SessionNotes) : List String :=
  if optTruthy (sessionNotes.bind (fun n => n.compactSummary)) then
    ["## Session Context (Compacted)", "",
      "> " ++ (sessionNotes.bind (fun n => n.compactSummary)).getD "", "", ""]
  else []

/-- `## Tool Activity` block (present iff `toolSummaries.length > 0`). -/
def toolActivitySection (ts : ToolNameSets) (toolSummaries : List ToolUsageSummary)
    (caps : DisplayCaps) : List String :=
  if 0 < toolSummaries.length then
    ["## Tool Activity", ""] ++ renderToolActivity ts toolSummaries caps ++ [""]
  else []

/-- `## Key Decisions` block (up to 5 reasoning highlights). -/
def decisionsSection (sessionNotes : Option SessionNotes) : List String :=
  match sessionNotes.bind (fun n => n.reasoning) with
  | some thoughts =>
    if 0 < thoughts.length then
      ["## Key Decisions", ""]
        ++ (thoughts.take 5).map (fun thought => "- " ++ thought)
        ++ ["", ""]
    else []
  | none => []

/-- `## Recent Conversation` block: last 10 messages, each truncated to 500
characters with an ellipsis marker.  (JS counts UTF-16 units; astral
characters aside, `String.take`/`length` agree.) -/
def recentSection (messages : List ConversationMessage) : List String :=
  if 0 < (messages.drop (messages.length - 10)).length then
    ["## Recent Conversation", ""]
      ++ (messages.drop (messages.length - 10)).flatMap (fun msg =>
          ["### " ++ (match msg.role with
              | .user => "User"
              | .assistant => "Assistant"), "",
            msg.content.take 500 ++ (if 500 < msg.content.length then "…" else ""),
            ""])
      ++ [""]
  else []

/-- `## Files Modified` block. -/
def filesSection (filesModified : List String) : List String :=
  if 0 < filesModified.length then
    ["## Files Modified", ""]
      ++ filesModified.map (fun file => "- `" ++ file ++ "`")
      ++ ["", ""]
  else []

/-- `## Pending Tasks` block. -/
def tasksSection (pendingTasks : List String) : List String :=
  if 0 < pendingTasks.length then
    ["## Pending Tasks", ""]
      ++ pendingTasks.map (fun task => "- [ ] " ++ task)
      ++ ["", ""]
  else []

/-- The fixed document head: title, Session Overview heading and the table
header rows. -/
def fixedHead : List String :=
  ["# Session Handoff Context", "", "", "## Session Overview", "",
    "| Field | Value |", "|-------|-------|"]

/-- The fixed closing: horizontal rule, blank line, closing directive. -/
def closingLines : List String :=
  ["---", "",
    "**You are continuing this session. Pick up exactly where it left off — review the conversation above, check pending tasks, and keep going.**"]

/-- `generateHandoffMarkdown` as the list of lines it joins (each TypeScript
`lines.push(x)` is one element; note a pushed message body may itself contain
newline characters). -/
def generateHandoffLines (ts : ToolNameSets) (labels : String → Option String)
    (session : UnifiedSession) (messages : List ConversationMessage)
    (filesModified : List String) (pendingTasks : List String)
    (toolSummaries : List ToolUsageSummary) (sessionNotes : Option SessionNotes)
    (mode : String) : List String :=
  fixedHead
    ++ overviewRows labels session sessionNotes filesModified messages
    ++ ["", ""]
    ++ summarySection session
    ++ compactSection sessionNotes
    ++ toolActivitySection ts toolSummaries (capsForMode mode)
    ++ decisionsSection sessionNotes
    ++ recentSection messages
    ++ filesSection filesModified
    ++ tasksSection pendingTasks
    ++ closingLines

/-- `generateHandoffMarkdown` — `lines.join('\n')`. -/
def generateHandoffMarkdown (ts : ToolNameSets) (labels : String → Option String)
    (session : UnifiedSession) (messages : List ConversationMessage)
    (filesModified : List String) (pendingTasks : List String)
    (toolSummaries : List ToolUsageSummary) (sessionNotes : Option SessionNotes)
    (mode : String) : String :=
  String.intercalate "\n"
    (generateHandoffLines ts labels session messages filesModified pendingTasks
      toolSummaries sessionNotes mode)

-- ── Spec-side extractors ────────────────────────────────────────────────────

/-- Lines beginning with `*` — within a shell section these are exactly the
overflow lines (all other lines start with `###`, `>`, or are blank). -/
def starLines (ls : List String) : List String :=
  ls.filter (fun l => l.data.head? == some '*')

/-- Lines beginning with `- *` — within a read/fallback section these are
exactly the overflow lines (entries start with ``- ` ``). -/
def dashStarLines (ls : List String) : List String :=
  ls.filter (fun l => l.data.take 3 == ['-', ' ', '*'])

/-- Rows of the overview table whose field cell is `**Model**`. -/
def isModelRow (l : String) : Bool :=
  l.data.take 13 == ("| **Model** |").data

/-- The `**Model**` rows of a row list. -/
def modelRowsOf (rows : List String) : List String :=
  rows.filter isModelRow

-- ── Shared concrete instances used by witnesses / counterexamples ───────────

/-- A `ToolNameSets` instance with all sets empty (set membership is
irrelevant to samples carrying structured data). -/
def emptySets : ToolNameSets := ⟨[], [], [], [], [], [], [], [], [], [], []⟩

/-- A label map with no registered adapters. -/
def noLabels : String → Option String := fun _ => none

/-- A minimal concrete session. -/
def exSession : UnifiedSession :=
  { id := "s1", source := "amp", cwd := "/w",
    updatedAtIso := "2026-01-02T03:04:05.000Z" }

/-- A concrete shell sample: `ls`, exit 0, not errored. -/
def exShell : ToolSample := ⟨"b", some (.shell "ls" (some 0) false none none)⟩

/-- The spec's example aggregate: `{name: "Bash", count: 7}` with 5 shell
samples and absent `errorCount`. -/
def bashAgg : ToolUsageSummary :=
  { name := "Bash", count := 7, errorCount := none
    samples := [exShell, exShell, exShell, exShell, exShell] }

-- ═══════════════════════════════════════════════════════════════════════════
-- C3 — mode totality / fail-fast
-- ═══════════════════════════════════════════════════════════════════════════

/-- C3 (counterexample): the claim says any mode value other than `"inline"`
and `"reference"` makes handoff generation fail fast; in the code the ternary
`mode === 'reference' ? REFERENCE_CAPS : INLINE_CAPS` instead silently selects
the inline profile for the unrecognized runtime value `"verbose"`, and
generation succeeds, producing exactly the document of the default mode. -/
theorem mode_fail_fast_counterexample :
    capsForMode "verbose" = INLINE_CAPS
      ∧ generateHandoffMarkdown emptySets noLabels exSession [] [] [] [] none "verbose"
          = generateHandoffMarkdown emptySets noLabels exSession [] [] [] [] none "inline" := by
  constructor
  · rfl
  · simp [generateHandoffMarkdown, generateHandoffLines, toolActivitySection]

/-- C3 (amended): the `mode` parameter's TypeScript type restricts callers to
exactly `"inline"` (the default) and `"reference"`; at runtime the display-cap
selection is total and never signals an error: `"reference"` selects the
reference profile and every other value — including unrecognized ones —
silently selects the inline profile, so generation with an unrecognized mode
produces the default-profile document instead of failing. -/
theorem mode_selection_silently_defaults (mode : String) (h : mode ≠ "reference") :
    capsForMode "inline" = INLINE_CAPS
      ∧ capsForMode "reference" = REFERENCE_CAPS
      ∧ capsForMode mode = INLINE_CAPS
      ∧ ∀ ts labels session messages filesModified pendingTasks toolSummaries sessionNotes,
          generateHandoffMarkdown ts labels session messages filesModified pendingTasks
              toolSummaries sessionNotes mode
            = generateHandoffMarkdown ts labels session messages filesModified pendingTasks
                toolSummaries sessionNotes "inline" := by
  have hmode : (mode == "reference") = false := by
    simpa using h
  have hcaps : capsForMode mode = INLINE_CAPS := by
    simp [capsForMode, hmode]
  refine ⟨rfl, rfl, hcaps, ?_⟩
  intro ts labels session messages filesModified pendingTasks toolSummaries sessionNotes
  simp only [generateHandoffMarkdown, generateHandoffLines, hcaps]
  rfl

/-- C3 witness: the amended theorem applied at the concrete unrecognized mode
`"verbose"`. -/
theorem mode_selection_silently_defaults_witness :
    capsForMode "verbose" = INLINE_CAPS :=
  (mode_selection_silently_defaults "verbose" (by decide)).2.2.1

-- ═══════════════════════════════════════════════════════════════════════════
-- C5 — two-tier category resolution
-- ═══════════════════════════════════════════════════════════════════════════

/-- `detectCategory` expressed through `Option.bind`: the two fallback arms of
the source (`samples[0]` missing, or present without structured data) collapse
into the `none` case. -/
theorem detectCategory_eq_bind (ts : ToolNameSets) (tool : ToolUsageSummary) :
    detectCategory ts tool =
      match tool.samples.head?.bind (fun s => s.data) with
      | some d => d.category
      | none => (classifyToolName ts tool.name).getD "mcp" := by
  unfold detectCategory
  cases tool.samples.head? with
  | none => rfl
  | some s => cases hs : s.data <;> simp only [Option.some_bind, hs]

set_option maxHeartbeats 3200000 in
/-- The classifier's fallback-defaulted result lies in the closed category set. -/
theorem getD_classifyToolName_mem (ts : ToolNameSets) (name : String) :
    (classifyToolName ts name).getD "mcp" ∈ ["shell", "write", "edit", "read",
      "grep", "glob", "search", "fetch", "task", "task-output", "ask", "mcp"] := by
  unfold classifyToolName
  split_ifs <;> decide

/-- C5: for every `ToolUsageSummary`, if the first sample's structured payload
is present its category tag is the rendering category; otherwise the category
is the canonical name classifier's result, defaulting to the reserved category
`mcp` when no canonical set matches; and resolution always terminates in a
defined category of the closed category set (never null/undefined). -/
theorem two_tier_category_resolution (ts : ToolNameSets) (tool : ToolUsageSummary) :
    (∀ s d, tool.samples.head? = some s → s.data = some d →
        detectCategory ts tool = d.category)
      ∧ (tool.samples.head?.bind (fun s => s.data) = none →
          detectCategory ts tool = (classifyToolName ts tool.name).getD "mcp")
      ∧ (tool.samples.head?.bind (fun s => s.data) = none →
          classifyToolName ts tool.name = none →
          detectCategory ts tool = "mcp")
      ∧ detectCategory ts tool ∈ ["shell", "write", "edit", "read", "grep", "glob",
          "search", "fetch", "task", "task-output", "ask", "mcp"] := by
  refine ⟨?_, ?_, ?_, ?_⟩
  · intro s d hs hd
    rw [detectCategory_eq_bind, hs, Option.some_bind, hd]
  · intro hnone
    rw [detectCategory_eq_bind, hnone]
  · intro hnone hcls
    rw [detectCategory_eq_bind, hnone, hcls]
    rfl
  · rw [detectCategory_eq_bind]
    cases hd : tool.samples.head?.bind (fun s => s.data) with
    | none => exact getD_classifyToolName_mem ts tool.name
    | some d =>
      show d.category ∈ _
      cases d <;> simp only [StructuredToolSample.category] <;> decide

/-- C5 witness: resolution of the concrete `Bash` aggregate (whose first
sample carries structured shell data) is the category `shell`. -/
theorem two_tier_category_resolution_witness :
    detectCategory emptySets bashAgg = "shell" :=
  (two_tier_category_resolution emptySets bashAgg).1 exShell
    (.shell "ls" (some 0) false none none) rfl rfl

-- ═══════════════════════════════════════════════════════════════════════════
-- C8 — document structure
-- ═══════════════════════════════════════════════════════════════════════════

/-- C8: the generated document (as the assembler's emitted line list) is the
fixed head `# Session Handoff Context` / `## Session Overview` with the table
header rows `| Field | Value |`, `|-------|-------|`, followed by the overview
rows and the optional section blocks in the fixed relative order Summary →
Session Context (Compacted) → Tool Activity → Key Decisions → Recent
Conversation → Files Modified → Pending Tasks, terminated by a horizontal rule
and the fixed closing sentence; each optional block is emitted iff its source
data is non-empty, and when emitted it starts with its section heading — in
particular an empty `toolSummaries` list emits no `## Tool Activity` block at
all. -/
theorem document_structure (ts : ToolNameSets) (labels : String → Option String)
    (session : UnifiedSession) (messages : List ConversationMessage)
    (filesModified : List String) (pendingTasks : List String)
    (toolSummaries : List ToolUsageSummary) (sessionNotes : Option SessionNotes)
    (mode : String) :
    (generateHandoffLines ts labels session messages filesModified pendingTasks
        toolSummaries sessionNotes mode
      = ["# Session Handoff Context", "", "", "## Session Overview", "",
          "| Field | Value |", "|-------|-------|"]
        ++ overviewRows labels session sessionNotes filesModified messages
        ++ ["", ""]
        ++ summarySection session
        ++ compactSection sessionNotes
        ++ toolActivitySection ts toolSummaries (capsForMode mode)
        ++ decisionsSection sessionNotes
        ++ recentSection messages
        ++ filesSection filesModified
        ++ tasksSection pendingTasks
        ++ ["---", "",
            "**You are continuing this session. Pick up exactly where it left off — review the conversation above, check pending tasks, and keep going.**"])
      ∧ (summarySection session = [] ↔ optTruthy session.summary = false)
      ∧ (summarySection session ≠ [] →
          (summarySection session).head? = some "## Summary")
      ∧ (compactSection sessionNotes = []
          ↔ optTruthy (sessionNotes.bind (fun n => n.compactSummary)) = false)
      ∧ (compactSection sessionNotes ≠ [] →
          (compactSection sessionNotes).head? = some "## Session Context (Compacted)")
      ∧ (toolActivitySection ts toolSummaries (capsForMode mode) = []
          ↔ toolSummaries = [])
      ∧ (toolSummaries ≠ [] →
          (toolActivitySection ts toolSummaries (capsForMode mode)).head?
            = some "## Tool Activity")
      ∧ (decisionsSection sessionNotes = []
          ↔ (sessionNotes.bind (fun n => n.reasoning)).getD [] = [])
      ∧ (decisionsSection sessionNotes ≠ [] →
          (decisionsSection sessionNotes).head? = some "## Key Decisions")
      ∧ (recentSection messages = [] ↔ messages = [])
      ∧ (messages ≠ [] →
          (recentSection messages).head? = some "## Recent Conversation")
      ∧ (filesSection filesModified = [] ↔ filesModified = [])
      ∧ (filesModified ≠ [] →
          (filesSection filesModified).head? = some "## Files Modified")
      ∧ (tasksSection pendingTasks = [] ↔ pendingTasks = [])
      ∧ (pendingTasks ≠ [] →
          (tasksSection pendingTasks).head? = some "## Pending Tasks") := by
  have hdrop : ∀ (l : List ConversationMessage), l ≠ [] →
      0 < (l.drop (l.length - 10)).length := by
    intro l hl
    rw [List.length_drop]
    have : 0 < l.length := List.length_pos.mpr hl
    omega
  refine ⟨rfl, ?_, ?_, ?_, ?_, ?_, ?_, ?_, ?_, ?_, ?_, ?_, ?_, ?_, ?_⟩
  · cases h : optTruthy session.summary <;> simp [summarySection, h]
  · cases h : optTruthy session.summary <;> simp [summarySection, h]
  · cases h : optTruthy (sessionNotes.bind (fun n => n.compactSummary)) <;>
      simp [compactSection, h]
  · cases h : optTruthy (sessionNotes.bind (fun n => n.compactSummary)) <;>
      simp [compactSection, h]
  · cases toolSummaries <;> simp [toolActivitySection]
  · intro h
    cases toolSummaries with
    | nil => exact absurd rfl h
    | cons a l => simp [toolActivitySection]
  · cases hr : sessionNotes.bind (fun n => n.reasoning) with
    | none => simp [decisionsSection, hr]
    | some thoughts => cases thoughts <;> simp [decisionsSection, hr]
  · intro h
    cases hr : sessionNotes.bind (fun n => n.reasoning) with
    | none => simp [decisionsSection, hr] at h
    | some thoughts =>
      cases thoughts with
      | nil => simp [decisionsSection, hr] at h
      | cons t rest => simp [decisionsSection, hr]
  · constructor
    · intro hh
      by_contra hne
      rw [recentSection, if_pos (hdrop messages hne)] at hh
      simp at hh
    · intro hh
      subst hh
      rfl
  · intro h
    rw [recentSection, if_pos (hdrop messages h)]
    rfl
  · cases filesModified <;> simp [filesSection]
  · intro h
    cases filesModified with
    | nil => exact absurd rfl h
    | cons a l => simp [filesSection]
  · cases pendingTasks <;> simp [tasksSection]
  · intro h
    cases pendingTasks with
    | nil => exact absurd rfl h
    | cons a l => simp [tasksSection]

/-- C8 witness: with zero tool summaries the Tool Activity block is absent. -/
theorem document_structure_witness :
    toolActivitySection emptySets [] (capsForMode "inline") = [] :=
  (document_structure emptySets noLabels exSession [] [] [] [] none
    "inline").2.2.2.2.2.1.mpr rfl

-- ═══════════════════════════════════════════════════════════════════════════
-- C10 — duplicate Model rows in the Session Overview table
-- ═══════════════════════════════════════════════════════════════════════════

/-- `isModelRow` only looks at the first 13 characters, so on a row built as
`pre ++ rest` with `pre` at least 13 characters long it is decided by `pre`. -/
theorem isModelRow_concat (pre rest : String) (hlen : 13 ≤ pre.data.length) :
    isModelRow (pre ++ rest) = (pre.data.take 13 == ("| **Model** |").data) := by
  unfold isModelRow
  rw [String.data_append, List.take_append_eq_append_take]
  have h0 : 13 - pre.data.length = 0 := by omega
  rw [h0, List.take_zero, List.append_nil]

/-- Filtering a conditionally-present singleton row commutes with the
condition. -/
theorem filter_if_singleton (c : Prop) [Decidable c] (r : String) :
    List.filter isModelRow (if c then [r] else []) =
      if c then List.filter isModelRow [r] else [] := by
  split <;> rfl

/-- Filtering an option-matched singleton row commutes with the match. -/
theorem filter_match_singleton {α : Type} (o : Option α) (f : α → String) :
    List.filter isModelRow (match o with | some t => [f t] | none => []) =
      (match o with | some t => List.filter isModelRow [f t] | none => []) := by
  cases o <;> rfl

/-- The `**Model**` rows of the overview table are exactly the (up to two)
rows emitted by the two model branches of the source. -/
theorem modelRows_overview (labels : String → Option String)
    (session : UnifiedSession) (sessionNotes : Option SessionNotes)
    (filesModified : List String) (messages : List ConversationMessage) :
    modelRowsOf (overviewRows labels session sessionNotes filesModified messages) =
      (if optTruthy session.model then
        ["| **Model** | " ++ session.model.getD "" ++ " |"]
      else [])
      ++ (if optTruthy (sessionNotes.bind (fun n => n.model))
            && decide ((sessionNotes.bind (fun n => n.model)) ≠ session.model) then
            ["| **Model** | " ++ (sessionNotes.bind (fun n => n.model)).getD "" ++ " |"]
          else []) := by
  have hS : ∀ x, isModelRow ("| **Source** | " ++ x) = false := fun x => by
    rw [isModelRow_concat _ x (by decide)]
    decide
  have hI : ∀ x, isModelRow ("| **Session ID** | `" ++ x) = false := fun x => by
    rw [isModelRow_concat _ x (by decide)]
    decide
  have hW : ∀ x, isModelRow ("| **Working Directory** | `" ++ x) = false := fun x => by
    rw [isModelRow_concat _ x (by decide)]
    decide
  have hR : ∀ x, isModelRow ("| **Repository** | " ++ x) = false := fun x => by
    rw [isModelRow_concat _ x (by decide)]
    decide
  have hM : ∀ x, isModelRow ("| **Model** | " ++ x) = true := fun x => by
    rw [isModelRow_concat _ x (by decide)]
    decide
  have hL : ∀ x, isModelRow ("| **Last Active** | " ++ x) = false := fun x => by
    rw [isModelRow_concat _ x (by decide)]
    decide
  have hT : ∀ x, isModelRow ("| **Tokens Used** | " ++ x) = false := fun x => by
    rw [isModelRow_concat _ x (by decide)]
    decide
  have hC : ∀ x, isModelRow ("| **Cache Tokens** | " ++ x) = false := fun x => by
    rw [isModelRow_concat _ x (by decide)]
    decide
  have hTh : ∀ x, isModelRow ("| **Thinking Tokens** | " ++ x) = false := fun x => by
    rw [isModelRow_concat _ x (by decide)]
    decide
  have hA : ∀ x, isModelRow ("| **Active Time** | " ++ x) = false := fun x => by
    rw [isModelRow_concat _ x (by decide)]
    decide
  have hF : ∀ x, isModelRow ("| **Files Modified** | " ++ x) = false := fun x => by
    rw [isModelRow_concat _ x (by decide)]
    decide
  have hMs : ∀ x, isModelRow ("| **Messages** | " ++ x) = false := fun x => by
    rw [isModelRow_concat _ x (by decide)]
    decide
  unfold modelRowsOf overviewRows
  simp only [List.filter_append, String.append_assoc, filter_if_singleton,
    filter_match_singleton]
  cases sessionNotes.bind (fun n => n.tokenUsage) <;>
    cases sessionNotes.bind (fun n => n.cacheTokens) <;>
    simp [List.filter_cons, List.filter_nil, hS, hI, hW, hR, hM, hL, hT, hC,
      hTh, hA, hF, hMs]

/-- C10: when the session carries a (truthy) model identifier and the session
notes carry a different truthy model identifier, the Session Overview table
contains two `| **Model** |` rows, the session's first and then the notes';
when the two are equal, or the notes carry none (absent/empty), exactly one
row appears; when neither side carries one, none appears. -/
theorem model_rows_duplication (labels : String → Option String)
    (session : UnifiedSession) (sessionNotes : Option SessionNotes)
    (filesModified : List String) (messages : List ConversationMessage) :
    (∀ m1 m2, session.model = some m1 → m1 ≠ "" →
        sessionNotes.bind (fun n => n.model) = some m2 → m2 ≠ "" → m2 ≠ m1 →
        modelRowsOf (overviewRows labels session sessionNotes filesModified messages)
          = ["| **Model** | " ++ m1 ++ " |", "| **Model** | " ++ m2 ++ " |"])
      ∧ (∀ m1, session.model = some m1 → m1 ≠ "" →
          sessionNotes.bind (fun n => n.model) = some m1 →
          modelRowsOf (overviewRows labels session sessionNotes filesModified messages)
            = ["| **Model** | " ++ m1 ++ " |"])
      ∧ (∀ m1, session.model = some m1 → m1 ≠ "" →
          optTruthy (sessionNotes.bind (fun n => n.model)) = false →
          modelRowsOf (overviewRows labels session sessionNotes filesModified messages)
            = ["| **Model** | " ++ m1 ++ " |"])
      ∧ (optTruthy session.model = false →
          optTruthy (sessionNotes.bind (fun n => n.model)) = false →
          modelRowsOf (overviewRows labels session sessionNotes filesModified messages)
            = []) := by
  refine ⟨?_, ?_, ?_, ?_⟩
  · intro m1 m2 h1 hm1 h2 hm2 hne
    rw [modelRows_overview, h1, h2]
    simp [optTruthy, hm1, hm2, hne]
  · intro m1 h1 hm1 h2
    rw [modelRows_overview, h1, h2]
    simp [optTruthy, hm1]
  · intro m1 h1 hm1 h2
    rw [modelRows_overview, h1, h2]
    simp [optTruthy, hm1]
  · intro h1 h2
    rw [modelRows_overview, h1, h2]
    simp

/-- C10 witness: a session model `m1` and a different notes model `m2` yield
the two rows, session's first. -/
theorem model_rows_duplication_witness :
    modelRowsOf (overviewRows noLabels
        { exSession with model := some "m1" }
        (some { model := some "m2" }) [] [])
      = ["| **Model** | m1 |", "| **Model** | m2 |"] :=
  (model_rows_duplication noLabels { exSession with model := some "m1" }
      (some { model := some "m2" }) [] []).1 "m1" "m2" rfl (by decide) rfl
    (by decide) (by decide)

-- ═══════════════════════════════════════════════════════════════════════════
-- C1 — count conservation across renderers
-- ═══════════════════════════════════════════════════════════════════════════

/-- Blockquoted lines never start with `*`. -/
theorem filter_star_quoted (xs : List String) :
    (xs.map (fun tl => "> " ++ tl)).filter (fun l => l.data.head? == some '*') = [] := by
  induction xs with
  | nil => rfl
  | cons a as ih =>
    rw [List.map_cons, List.filter_cons]
    have h : ((("> " ++ a).data.head? == some '*')) = false := rfl
    simp only [h, Bool.false_eq_true, if_false]
    exact ih

/-- Core shape fact for the shell block body: given header lines all starting
with `>`, every line of the assembled block starts with `>` or is blank. -/
theorem mem_shell_core (L2 : List String) (hL2 : ∀ x ∈ L2, x.data.head? = some '>')
    (errored : Bool) (stdoutTail errorMessage : Option String) (n : Nat) (a : String)
    (ha : a ∈ (if optTruthy stdoutTail then
          L2 ++ (["> ```"]
            ++ ((jsSplit (stdoutTail.getD "") "\n").take n).map (fun tl => "> " ++ tl)
            ++ ["> ```"])
        else if errored && optTruthy errorMessage then
          L2 ++ (["> ```"]
            ++ ((jsSplit (errorMessage.getD "") "\n").take n).map (fun el => "> " ++ el)
            ++ ["> ```"])
        else L2) ++ [""]) :
    a.data.head? = some '>' ∨ a = "" := by
  have hquote : ∀ (s : String) (x : String),
      x ∈ ["> ```"] ++ ((jsSplit s "\n").take n).map (fun tl => "> " ++ tl) ++ ["> ```"] →
        x.data.head? = some '>' := by
    intro s x hx
    rcases List.mem_append.mp hx with hx | hx
    · rcases List.mem_append.mp hx with hx | hx
      · rcases List.mem_singleton.mp hx with rfl
        rfl
      · obtain ⟨tl, _, rfl⟩ := List.mem_map.mp hx
        rfl
    · rcases List.mem_singleton.mp hx with rfl
      rfl
  rcases List.mem_append.mp ha with h | h
  · by_cases h1 : optTruthy stdoutTail
    · rw [if_pos h1] at h
      rcases List.mem_append.mp h with h | h
      · exact Or.inl (hL2 a h)
      · exact Or.inl (hquote _ a h)
    · rw [if_neg h1] at h
      by_cases h2 : (errored && optTruthy errorMessage) = true
      · rw [if_pos h2] at h
        rcases List.mem_append.mp h with h | h
        · exact Or.inl (hL2 a h)
        · exact Or.inl (hquote _ a h)
      · rw [if_neg h2] at h
        exact Or.inl (hL2 a h)
  · rcases List.mem_singleton.mp h with rfl
    exact Or.inr rfl

/-- Every line of a detailed shell block starts with `>` or is blank. -/
theorem mem_renderShellSample (sample : ToolSample) (n : Nat) (a : String)
    (ha : a ∈ renderShellSample sample n) : a.data.head? = some '>' ∨ a = "" := by
  have hfallback : ∀ (s : String), a ∈ ["> `" ++ s ++ "`", ""] →
      a.data.head? = some '>' ∨ a = "" := by
    intro s hx
    rcases List.mem_cons.mp hx with rfl | hx
    · exact Or.inl rfl
    · rcases List.mem_singleton.mp hx with rfl
      exact Or.inr rfl
  rcases sample with ⟨summary, data⟩
  rcases data with _ | d
  · exact hfallback summary ha
  cases d
  case shell command exitCode errored stdoutTail errorMessage =>
    cases exitCode with
    | none =>
      refine mem_shell_core ["> `$ " ++ command ++ "`"] ?_ errored stdoutTail
        errorMessage n a ha
      intro x hx
      rcases List.mem_singleton.mp hx with rfl
      rfl
    | some ec =>
      refine mem_shell_core
        (["> `$ " ++ command ++ "`"]
          ++ ["> Exit: " ++ toString ec ++ (if errored then "  **[ERROR]**" else "")])
        ?_ errored stdoutTail errorMessage n a ha
      intro x hx
      rcases List.mem_append.mp hx with hx | hx
      · rcases List.mem_singleton.mp hx with rfl
        rfl
      · rcases List.mem_singleton.mp hx with rfl
        rfl
  all_goals exact hfallback summary ha

/-- No line of a detailed shell block starts with `*`. -/
theorem renderShellSample_filter_star (sample : ToolSample) (n : Nat) :
    (renderShellSample sample n).filter (fun l => l.data.head? == some '*') = [] := by
  rw [List.filter_eq_nil_iff]
  intro a ha
  rcases mem_renderShellSample sample n a ha with h | h
  · simp [h]
  · subst h
    simp

/-- A bulleted entry produced by `f` (whose entries all start with ``- ` ``)
never matches the `- *` overflow shape. -/
theorem filter_dashStar_entries (f : ToolSample → String)
    (hf : ∀ s, (f s).data.take 3 = ['-', ' ', '`']) (xs : List ToolSample) :
    (xs.map f).filter (fun l => l.data.take 3 == ['-', ' ', '*']) = [] := by
  induction xs with
  | nil => rfl
  | cons a as ih =>
    rw [List.map_cons, List.filter_cons]
    have h : (((f a).data.take 3 == ['-', ' ', '*'])) = false := by
      rw [hf a]
      rfl
    simp only [h, Bool.false_eq_true, if_false]
    exact ih

/-- Every read-section entry starts with ``- ` ``. -/
theorem renderReadEntry_take3 (sample : ToolSample) :
    (renderReadEntry sample).data.take 3 = ['-', ' ', '`'] := by
  rcases sample with ⟨summary, data⟩
  rcases data with _ | d
  · rfl
  · cases d <;> rfl

/-- C1: for every aggregate whose `count` is at least the number of samples it
carries, the shell / read / fallback renderers show
`min(samples.length, cap)` samples in detail (caps `shellDetailed`,
`readEntries`, and the fixed 5); each emits exactly one overflow line iff
`count` exceeds the number shown, whose stated remainder is
`count − shown` — so detailed-shown plus stated overflow equals `count` — and
no overflow line when `count` equals the number shown. -/
theorem count_conservation (tool : ToolUsageSummary) (caps : DisplayCaps)
    (h : tool.samples.length ≤ tool.count) :
    ((tool.samples.take caps.shellDetailed).length
        = min tool.samples.length caps.shellDetailed)
      ∧ starLines (renderShellSection tool caps)
          = (if min tool.samples.length caps.shellDetailed < tool.count then
              ["*...and "
                  ++ toString (tool.count - min tool.samples.length caps.shellDetailed)
                  ++ " more shell calls"
                  ++ (if !(natTruthy tool.errorCount) then " (all exit 0)" else "")
                  ++ "*"]
            else [])
      ∧ min tool.samples.length caps.shellDetailed
          + (tool.count - min tool.samples.length caps.shellDetailed) = tool.count
      ∧ ((tool.samples.take caps.readEntries).length
          = min tool.samples.length caps.readEntries)
      ∧ dashStarLines (renderReadSection tool caps)
          = (if min tool.samples.length caps.readEntries < tool.count then
              ["- *...and "
                  ++ toString (tool.count - min tool.samples.length caps.readEntries)
                  ++ " more files read*"]
            else [])
      ∧ min tool.samples.length caps.readEntries
          + (tool.count - min tool.samples.length caps.readEntries) = tool.count
      ∧ ((tool.samples.take 5).length = min tool.samples.length 5)
      ∧ dashStarLines (renderFallbackSection tool)
          = (if min tool.samples.length 5 < tool.count then
              ["- *...and " ++ toString (tool.count - min tool.samples.length 5)
                  ++ " more*"]
            else [])
      ∧ min tool.samples.length 5 + (tool.count - min tool.samples.length 5)
          = tool.count := by
  have hshell : (tool.samples.take caps.shellDetailed).length
      = min tool.samples.length caps.shellDetailed := by
    rw [List.length_take, Nat.min_comm]
  have hread : (tool.samples.take caps.readEntries).length
      = min tool.samples.length caps.readEntries := by
    rw [List.length_take, Nat.min_comm]
  have hfb : (tool.samples.take 5).length = min tool.samples.length 5 := by
    rw [List.length_take, Nat.min_comm]
  refine ⟨hshell, ?_, ?_, hread, ?_, ?_, hfb, ?_, ?_⟩
  · simp only [renderShellSection, starLines, List.filter_append, hshell]
    rw [show List.filter (fun l => l.data.head? == some '*')
        ["### Shell (" ++ toString tool.count ++ " calls" ++ errorStrOf tool ++ ")", ""]
        = [] from rfl]
    rw [List.filter_flatMap]
    rw [List.flatMap_eq_nil_iff.mpr
      (fun s _ => renderShellSample_filter_star s caps.shellStdoutLines)]
    by_cases hc : min tool.samples.length caps.shellDetailed < tool.count
    · simp only [if_pos hc]
      rfl
    · simp only [if_neg hc]
      rfl
  · have := Nat.min_le_left tool.samples.length caps.shellDetailed
    omega
  · simp only [renderReadSection, dashStarLines, List.filter_append, hread]
    rw [show List.filter (fun l => l.data.take 3 == ['-', ' ', '*'])
        ["### Read (" ++ toString tool.count ++ " calls" ++ errorStrOf tool ++ ")", ""]
        = [] from rfl]
    rw [filter_dashStar_entries renderReadEntry renderReadEntry_take3]
    rw [show List.filter (fun l => l.data.take 3 == ['-', ' ', '*']) [""] = [] from rfl]
    by_cases hc : min tool.samples.length caps.readEntries < tool.count
    · simp only [if_pos hc]
      rfl
    · simp only [if_neg hc]
      rfl
  · have := Nat.min_le_left tool.samples.length caps.readEntries
    omega
  · simp only [renderFallbackSection, dashStarLines, List.filter_append]
    rw [show List.filter (fun l => l.data.take 3 == ['-', ' ', '*'])
        ["### " ++ tool.name ++ " (" ++ toString tool.count ++ " calls)", ""]
        = [] from rfl]
    rw [filter_dashStar_entries (fun sample => "- `" ++ sample.summary ++ "`")
      (fun _ => rfl)]
    rw [show List.filter (fun l => l.data.take 3 == ['-', ' ', '*']) [""] = [] from rfl]
    by_cases hc : min tool.samples.length 5 < tool.count
    · simp only [if_pos hc]
      rfl
    · simp only [if_neg hc]
      rfl
  · have := Nat.min_le_left tool.samples.length 5
    omega

/-- C1 witness: the Bash aggregate (count 7, 5 samples) under inline caps. -/
theorem count_conservation_witness :
    starLines (renderShellSection bashAgg INLINE_CAPS)
      = ["*...and 2 more shell calls (all exit 0)*"] :=
  ((count_conservation bashAgg INLINE_CAPS (by decide)).2.1).trans (by decide)

-- ═══════════════════════════════════════════════════════════════════════════
-- C6 — shell sample rendering
-- ═══════════════════════════════════════════════════════════════════════════

/-- A concrete shell sample with non-zero exit code but `errored: false`. -/
def exitOneSample : ToolSample := ⟨"x", some (.shell "ls" (some 1) false none none)⟩

/-- C6 (counterexample): the claim says the exit-code line carries an error
flag exactly when the exit code is non-zero; the code instead drives the flag
from the sample's `errored` field.  A sample with exit code 1 and
`errored: false` renders `> Exit: 1` with no `**[ERROR]**` flag even though
its exit code is non-zero. -/
theorem shell_error_flag_counterexample :
    exitOneSample.data = some (.shell "ls" (some 1) false none none)
      ∧ (1 : Int) ≠ 0
      ∧ renderShellSample exitOneSample 3 = ["> `$ ls`", "> Exit: 1", ""] := by
  refine ⟨rfl, by decide, ?_⟩
  rfl

/-- C6 (amended): for every shell-category sample with structured data, the
rendered block opens with the command line; the exit-code line (present iff
the exit code is) carries the `**[ERROR]**` flag exactly when the sample's
`errored` field is set (not when the exit code is non-zero); the body shows at
most `n` lines of the stdout tail, or — only when the call errored and has no
(truthy) stdout tail — at most `n` lines of the error message, never both; and
the aggregate `{name: "Bash", count: 7}` with 5 samples under inline caps and
absent `errorCount` renders exactly 5 detailed blocks followed by
`*...and 2 more shell calls (all exit 0)*`. -/
theorem shell_sample_rendering (summary command : String) (exitCode : Option Int)
    (errored : Bool) (stdoutTail errorMessage : Option String) (n : Nat)
    (sample : ToolSample)
    (hs : sample = ⟨summary, some (.shell command exitCode errored stdoutTail errorMessage)⟩) :
    renderShellSample sample n =
      ["> `$ " ++ command ++ "`"]
        ++ (match exitCode with
            | some ec =>
              ["> Exit: " ++ toString ec ++ (if errored then "  **[ERROR]**" else "")]
            | none => [])
        ++ (if optTruthy stdoutTail then
              ["> ```"]
                ++ ((jsSplit (stdoutTail.getD "") "\n").take n).map (fun tl => "> " ++ tl)
                ++ ["> ```"]
            else if errored && optTruthy errorMessage then
              ["> ```"]
                ++ ((jsSplit (errorMessage.getD "") "\n").take n).map (fun el => "> " ++ el)
                ++ ["> ```"]
            else [])
        ++ [""]
      ∧ ((jsSplit (stdoutTail.getD "") "\n").take n).length ≤ n
      ∧ ((jsSplit (errorMessage.getD "") "\n").take n).length ≤ n
      ∧ renderShellSection bashAgg INLINE_CAPS =
          ["### Shell (7 calls)", "",
            "> `$ ls`", "> Exit: 0", "",
            "> `$ ls`", "> Exit: 0", "",
            "> `$ ls`", "> Exit: 0", "",
            "> `$ ls`", "> Exit: 0", "",
            "> `$ ls`", "> Exit: 0", "",
            "*...and 2 more shell calls (all exit 0)*", ""] := by
  subst hs
  refine ⟨?_, ?_, ?_, ?_⟩
  · cases exitCode <;>
      by_cases h1 : optTruthy stdoutTail <;>
        by_cases h2 : (errored && optTruthy errorMessage) = true <;>
          simp only [renderShellSample, h1, h2, if_true, if_false,
            Bool.false_eq_true, List.append_assoc] <;> rfl
  · simp only [List.length_take]
    exact Nat.min_le_left _ _
  · simp only [List.length_take]
    exact Nat.min_le_left _ _
  · decide

/-- C6 witness: the amended theorem applied to a concrete errored sample with
an error message and no stdout — the body shows the error message. -/
theorem shell_sample_rendering_witness :
    renderShellSample ⟨"s", some (.shell "make" (some 2) true none (some "boom"))⟩ 3
      = ["> `$ make`", "> Exit: 2  **[ERROR]**", "> ```", "> boom", "> ```", ""] :=
  ((shell_sample_rendering "s" "make" (some 2) true none (some "boom") 3 _ rfl).1).trans
    (by decide)

-- ═══════════════════════════════════════════════════════════════════════════
-- C7 — write/edit diff truncation
-- ═══════════════════════════════════════════════════════════════════════════

/-- A 300-line diff body (no `---`/`+++` lines). -/
def diff300 : String := String.intercalate "\n" (List.replicate 300 "+x")

/-- The spec's example: a write sample whose diff body has 300 lines. -/
def w300 : ToolSample := ⟨"w", some (.write "f.ts" false (some diff300) none)⟩

set_option maxRecDepth 100000 in
/-- C7: for every write or edit sample with a (truthy) diff, the renderer
drops the lines starting with `---` or `+++`, shows at most `n` of the
remaining diff body lines, and appends a `+N lines truncated` note exactly
when the body is longer than the cap, with `N = body − n`; in particular the
300-line write diff under inline caps (`writeEditDiffLines = 50`) renders 50
diff lines followed by `> *+250 lines truncated*`. -/
theorem write_edit_diff_truncation (summary filePath diff : String)
    (isNewFile : Bool) (stats : Option DiffStats) (n : Nat) (sW sE : ToolSample)
    (hW : sW = ⟨summary, some (.write filePath isNewFile (some diff) stats)⟩)
    (hE : sE = ⟨summary, some (.edit filePath (some diff) stats)⟩)
    (hdiff : diff ≠ "") :
    (renderWriteSample sW n =
      ["> **`" ++ filePath ++ "`**" ++ (if isNewFile then " (new file)" else "")
          ++ (match stats with
              | some st => " (+" ++ toString st.added ++ " lines)"
              | none => "")]
        ++ ["> ```diff"]
        ++ (((jsSplit diff "\n").filter
              (fun l => !(jsStartsWith l "---" || jsStartsWith l "+++"))).take n).map
            (fun dl => "> " ++ dl)
        ++ ["> ```"]
        ++ (if n < ((jsSplit diff "\n").filter
              (fun l => !(jsStartsWith l "---" || jsStartsWith l "+++"))).length then
              ["> *+" ++ toString (((jsSplit diff "\n").filter
                  (fun l => !(jsStartsWith l "---" || jsStartsWith l "+++"))).length - n)
                ++ " lines truncated*"]
            else [])
        ++ [""])
      ∧ (renderEditSample sE n =
        ["> **`" ++ filePath ++ "`**"
            ++ (match stats with
                | some st => " (+" ++ toString st.added ++ " -" ++ toString st.removed
                    ++ " lines)"
                | none => "")]
          ++ ["> ```diff"]
          ++ (((jsSplit diff "\n").filter
                (fun l => !(jsStartsWith l "---" || jsStartsWith l "+++"))).take n).map
              (fun dl => "> " ++ dl)
          ++ ["> ```"]
          ++ (if n < ((jsSplit diff "\n").filter
                (fun l => !(jsStartsWith l "---" || jsStartsWith l "+++"))).length then
                ["> *+" ++ toString (((jsSplit diff "\n").filter
                    (fun l => !(jsStartsWith l "---" || jsStartsWith l "+++"))).length - n)
                  ++ " lines truncated*"]
              else [])
          ++ [""])
      ∧ (∀ l ∈ (jsSplit diff "\n").filter
            (fun l => !(jsStartsWith l "---" || jsStartsWith l "+++")),
          jsStartsWith l "---" = false ∧ jsStartsWith l "+++" = false)
      ∧ (((jsSplit diff "\n").filter
            (fun l => !(jsStartsWith l "---" || jsStartsWith l "+++"))).take n).length
          = min ((jsSplit diff "\n").filter
              (fun l => !(jsStartsWith l "---" || jsStartsWith l "+++"))).length n
      ∧ renderWriteSample w300 50 =
          ["> **`f.ts`**", "> ```diff"] ++ List.replicate 50 "> +x"
            ++ ["> ```", "> *+250 lines truncated*", ""] := by
  subst hW
  subst hE
  have ht : optTruthy (some diff) = true := by
    simp [optTruthy, hdiff]
  have hcl : (((jsSplit diff "\n").filter
      (fun l => !(jsStartsWith l "---" || jsStartsWith l "+++"))).take n).length
      = min n ((jsSplit diff "\n").filter
          (fun l => !(jsStartsWith l "---" || jsStartsWith l "+++"))).length :=
    List.length_take _ _
  refine ⟨?_, ?_, ?_, ?_, ?_⟩
  · simp only [renderWriteSample, ht, if_true, Option.getD_some]
    by_cases hlt : n < ((jsSplit diff "\n").filter
        (fun l => !(jsStartsWith l "---" || jsStartsWith l "+++"))).length
    · have h0 : 0 < ((jsSplit diff "\n").filter
          (fun l => !(jsStartsWith l "---" || jsStartsWith l "+++"))).length
          - (((jsSplit diff "\n").filter
              (fun l => !(jsStartsWith l "---" || jsStartsWith l "+++"))).take n).length := by
        rw [hcl]
        omega
      have hval : ((jsSplit diff "\n").filter
          (fun l => !(jsStartsWith l "---" || jsStartsWith l "+++"))).length
          - (((jsSplit diff "\n").filter
              (fun l => !(jsStartsWith l "---" || jsStartsWith l "+++"))).take n).length
          = ((jsSplit diff "\n").filter
              (fun l => !(jsStartsWith l "---" || jsStartsWith l "+++"))).length - n := by
        rw [hcl]
        omega
      rw [if_pos h0, if_pos hlt, hval]
      simp only [List.append_assoc, List.cons_append, List.nil_append,
        List.append_nil, List.cons.injEq, and_true, true_and]
      cases stats <;> simp
    · have h0 : ¬(0 < ((jsSplit diff "\n").filter
          (fun l => !(jsStartsWith l "---" || jsStartsWith l "+++"))).length
          - (((jsSplit diff "\n").filter
              (fun l => !(jsStartsWith l "---" || jsStartsWith l "+++"))).take n).length) := by
        rw [hcl]
        omega
      rw [if_neg h0, if_neg hlt]
      simp only [List.append_assoc, List.cons_append, List.nil_append,
        List.append_nil, List.cons.injEq, and_true, true_and]
      cases stats <;> simp
  · simp only [renderEditSample, ht, if_true, Option.getD_some]
    by_cases hlt : n < ((jsSplit diff "\n").filter
        (fun l => !(jsStartsWith l "---" || jsStartsWith l "+++"))).length
    · have h0 : 0 < ((jsSplit diff "\n").filter
          (fun l => !(jsStartsWith l "---" || jsStartsWith l "+++"))).length
          - (((jsSplit diff "\n").filter
              (fun l => !(jsStartsWith l "---" || jsStartsWith l "+++"))).take n).length := by
        rw [hcl]
        omega
      have hval : ((jsSplit diff "\n").filter
          (fun l => !(jsStartsWith l "---" || jsStartsWith l "+++"))).length
          - (((jsSplit diff "\n").filter
              (fun l => !(jsStartsWith l "---" || jsStartsWith l "+++"))).take n).length
          = ((jsSplit diff "\n").filter
              (fun l => !(jsStartsWith l "---" || jsStartsWith l "+++"))).length - n := by
        rw [hcl]
        omega
      rw [if_pos h0, if_pos hlt, hval]
      simp only [List.append_assoc, List.cons_append, List.nil_append,
        List.append_nil, List.cons.injEq, and_true, true_and]
      cases stats <;> simp
    · have h0 : ¬(0 < ((jsSplit diff "\n").filter
          (fun l => !(jsStartsWith l "---" || jsStartsWith l "+++"))).length
          - (((jsSplit diff "\n").filter
              (fun l => !(jsStartsWith l "---" || jsStartsWith l "+++"))).take n).length) := by
        rw [hcl]
        omega
      rw [if_neg h0, if_neg hlt]
      simp only [List.append_assoc, List.cons_append, List.nil_append,
        List.append_nil, List.cons.injEq, and_true, true_and]
      cases stats <;> simp
  · intro l hl
    have := List.of_mem_filter hl
    constructor
    · rcases Bool.or_eq_false_iff.mp (Bool.not_eq_true' .. ▸ this) with ⟨h1, _⟩
      · exact h1
    · rcases Bool.or_eq_false_iff.mp (Bool.not_eq_true' .. ▸ this) with ⟨_, h2⟩
      · exact h2
  · rw [hcl, Nat.min_comm]
  · decide

/-- C7 witness: a concrete 4-line diff whose `---`/`+++` header lines are
filtered and whose 2-line body is truncated to 1 line with a `+1` note. -/
theorem write_edit_diff_truncation_witness :
    renderWriteSample ⟨"w", some (.write "a.ts" true (some "--- a\n+++ b\n+1\n 2") none)⟩ 1
      = ["> **`a.ts`** (new file)", "> ```diff", "> +1", "> ```",
          "> *+1 lines truncated*", ""] :=
  ((write_edit_diff_truncation "w" "a.ts" "--- a\n+++ b\n+1\n 2" true none 1 _
      ⟨"w", some (.edit "a.ts" (some "--- a\n+++ b\n+1\n 2") none)⟩
      rfl rfl (by decide)).1).trans (by decide)

-- ═══════════════════════════════════════════════════════════════════════════
-- C2 — MCP namespace grouping
-- ═══════════════════════════════════════════════════════════════════════════

/-- The bucket-map part of one iteration of `groupMcpByNamespace`'s first
loop. -/
def bucketStep (ts : ToolNameSets) (m : List (String × List ToolUsageSummary))
    (tool : ToolUsageSummary) : List (String × List ToolUsageSummary) :=
  if isGroupCandidate ts tool then nsInsert m (nsOf tool) tool else m

/-- The first loop splits into the pass-through filter and the bucket fold. -/
theorem foldl_groupMcpStep (ts : ToolNameSets) (l : List ToolUsageSummary) :
    ∀ (r : List ToolUsageSummary) (m : List (String × List ToolUsageSummary)),
      l.foldl (groupMcpStep ts) ⟨r, m⟩
        = ⟨r ++ l.filter (fun t => !(isGroupCandidate ts t)),
            l.foldl (bucketStep ts) m⟩ := by
  induction l with
  | nil => intro r m; simp
  | cons t l ih =>
    intro r m
    rw [List.foldl_cons, List.foldl_cons]
    by_cases hc : isGroupCandidate ts t
    · rw [show groupMcpStep ts ⟨r, m⟩ t = ⟨r, nsInsert m (nsOf t) t⟩ from by
        simp [groupMcpStep, hc]]
      rw [ih]
      simp [bucketStep, hc]
    · rw [show groupMcpStep ts ⟨r, m⟩ t = ⟨r ++ [t], m⟩ from by
        simp [groupMcpStep, hc]]
      rw [ih]
      simp [bucketStep, hc]

/-- The bucket map of `groupMcpByNamespace` as a plain fold. -/
theorem mcpBuckets_eq_fold (ts : ToolNameSets) (l : List ToolUsageSummary) :
    mcpBuckets ts l = l.foldl (bucketStep ts) [] := by
  unfold mcpBuckets
  rw [foldl_groupMcpStep]

/-- The second loop appends one merged-or-singleton entry per bucket. -/
theorem foldl_push_map (bs : List (String × List ToolUsageSummary))
    (init : List ToolUsageSummary) :
    bs.foldl (fun res b => res ++ [mergeNsBucket b]) init
      = init ++ bs.map mergeNsBucket := by
  induction bs generalizing init with
  | nil => simp
  | cons b bs ih =>
    rw [List.foldl_cons, ih]
    simp

/-- `groupMcpByNamespace` decomposes into pass-through entries (in original
order) followed by one entry per namespace bucket (in first-seen order). -/
theorem groupMcp_decomposition (ts : ToolNameSets) (l : List ToolUsageSummary) :
    groupMcpByNamespace ts l
      = l.filter (fun t => !(isGroupCandidate ts t))
        ++ (mcpBuckets ts l).map mergeNsBucket := by
  unfold groupMcpByNamespace
  rw [foldl_groupMcpStep, foldl_push_map, mcpBuckets_eq_fold]
  simp

-- ── nsInsert lemmas ─────────────────────────────────────────────────────────

/-- Keys after `nsInsert`: unchanged when the namespace was present, appended
otherwise. -/
theorem nsInsert_keys (m : List (String × List ToolUsageSummary)) (ns : String)
    (t : ToolUsageSummary) :
    (nsInsert m ns t).map Prod.fst =
      if ns ∈ m.map Prod.fst then m.map Prod.fst else m.map Prod.fst ++ [ns] := by
  induction m with
  | nil => simp [nsInsert]
  | cons kv rest ih =>
    obtain ⟨k0, v0⟩ := kv
    by_cases hk : k0 == ns
    · have hk' : k0 = ns := by simpa using hk
      subst hk'
      simp [nsInsert]
    · have hk' : ¬(k0 = ns) := by simpa using hk
      rw [show nsInsert ((k0, v0) :: rest) ns t = (k0, v0) :: nsInsert rest ns t from by
        simp [nsInsert, hk]]
      by_cases hmem : ns ∈ rest.map Prod.fst
      · have hin : ns ∈ k0 :: rest.map Prod.fst := List.mem_cons_of_mem _ hmem
        simp only [List.map_cons, ih, if_pos hmem, if_pos hin]
      · have hnin : ¬(ns ∈ k0 :: rest.map Prod.fst) := by
          simp only [List.mem_cons]
          rintro (hh | hh)
          · exact hk' hh.symm
          · exact hmem hh
        simp only [List.map_cons, ih, if_neg hmem, if_neg hnin, List.cons_append]

/-- Membership in `nsInsert` under key uniqueness: an entry is an untouched
old entry with a different key, the grown entry of an existing bucket, or the
fresh singleton bucket. -/
theorem mem_nsInsert (m : List (String × List ToolUsageSummary)) (ns : String)
    (t : ToolUsageSummary) (hnd : (m.map Prod.fst).Nodup) (k : String)
    (v : List ToolUsageSummary) (hm : (k, v) ∈ nsInsert m ns t) :
    (¬(k = ns) ∧ (k, v) ∈ m)
      ∨ (k = ns ∧ ∃ v0, (ns, v0) ∈ m ∧ v = v0 ++ [t])
      ∨ (k = ns ∧ ¬(ns ∈ m.map Prod.fst) ∧ v = [t]) := by
  induction m with
  | nil =>
    simp [nsInsert] at hm
    exact Or.inr (Or.inr ⟨hm.1, by simp, hm.2⟩)
  | cons kv rest ih =>
    obtain ⟨k0, v0⟩ := kv
    have hnd' : (rest.map Prod.fst).Nodup := (List.nodup_cons.mp hnd).2
    have hk0 : ¬(k0 ∈ rest.map Prod.fst) := (List.nodup_cons.mp hnd).1
    by_cases hk : k0 == ns
    · have hk' : k0 = ns := by simpa using hk
      subst hk'
      rw [show nsInsert ((k0, v0) :: rest) k0 t = (k0, v0 ++ [t]) :: rest from by
        simp [nsInsert]] at hm
      rcases List.mem_cons.mp hm with h | h
      · have h1 : k = k0 := congrArg Prod.fst h
        have h2 : v = v0 ++ [t] := congrArg Prod.snd h
        exact Or.inr (Or.inl ⟨h1, v0, List.mem_cons_self _ _, h2⟩)
      · left
        refine ⟨?_, List.mem_cons_of_mem _ h⟩
        intro hkk
        subst hkk
        exact hk0 (List.mem_map.mpr ⟨(k, v), h, rfl⟩)
    · have hk' : ¬(k0 = ns) := by simpa using hk
      rw [show nsInsert ((k0, v0) :: rest) ns t = (k0, v0) :: nsInsert rest ns t from by
        simp [nsInsert, hk]] at hm
      rcases List.mem_cons.mp hm with h | h
      · have h1 : k = k0 := congrArg Prod.fst h
        have h2 : v = v0 := congrArg Prod.snd h
        subst h1
        subst h2
        exact Or.inl ⟨hk', List.mem_cons_self _ _⟩
      · rcases ih hnd' h with ⟨h1, h2⟩ | ⟨h1, v1, hv1, hv2⟩ | ⟨h1, h2, h3⟩
        · exact Or.inl ⟨h1, List.mem_cons_of_mem _ h2⟩
        · exact Or.inr (Or.inl ⟨h1, v1, List.mem_cons_of_mem _ hv1, hv2⟩)
        · refine Or.inr (Or.inr ⟨h1, ?_, h3⟩)
          simp only [List.map_cons, List.mem_cons]
          rintro (hh | hh)
          · exact hk' hh.symm
          · exact h2 hh

/-- Invariant of the bucket fold: keys stay unique, every bucket holds exactly
the candidates of its namespace in encounter order (hence is non-empty), and
every processed candidate's namespace has a bucket. -/
theorem buckets_inv (ts : ToolNameSets) (l : List ToolUsageSummary) :
    ∀ (m : List (String × List ToolUsageSummary)) (processed : List ToolUsageSummary),
      (m.map Prod.fst).Nodup →
      (∀ ns tools, (ns, tools) ∈ m →
        tools = processed.filter (fun t => isGroupCandidate ts t && (nsOf t == ns))
          ∧ tools ≠ []) →
      (∀ t ∈ processed, isGroupCandidate ts t = true → nsOf t ∈ m.map Prod.fst) →
      ((l.foldl (bucketStep ts) m).map Prod.fst).Nodup
        ∧ (∀ ns tools, (ns, tools) ∈ l.foldl (bucketStep ts) m →
            tools = (processed ++ l).filter
                (fun t => isGroupCandidate ts t && (nsOf t == ns))
              ∧ tools ≠ [])
        ∧ (∀ t ∈ processed ++ l, isGroupCandidate ts t = true →
            nsOf t ∈ (l.foldl (bucketStep ts) m).map Prod.fst) := by
  induction l with
  | nil =>
    intro m processed h1 h2 h3
    rw [List.foldl_nil]
    refine ⟨h1, ?_, ?_⟩ <;> simp only [List.append_nil] <;> assumption
  | cons t l ih =>
    intro m processed h1 h2 h3
    rw [List.foldl_cons]
    by_cases hc : isGroupCandidate ts t
    · rw [show bucketStep ts m t = nsInsert m (nsOf t) t from by simp [bucketStep, hc]]
      have hkeys := nsInsert_keys m (nsOf t) t
      have hsub : ∀ k, k ∈ m.map Prod.fst → k ∈ (nsInsert m (nsOf t) t).map Prod.fst := by
        intro k hk
        rw [hkeys]
        split
        · exact hk
        · exact List.mem_append_left _ hk
      have hself : nsOf t ∈ (nsInsert m (nsOf t) t).map Prod.fst := by
        rw [hkeys]
        split
        · assumption
        · exact List.mem_append_right _ (List.mem_singleton_self _)
      have h1' : ((nsInsert m (nsOf t) t).map Prod.fst).Nodup := by
        rw [hkeys]
        split
        · exact h1
        · rename_i hnot
          rw [← List.concat_eq_append]
          exact List.Nodup.concat hnot h1
      have h2' : ∀ ns tools, (ns, tools) ∈ nsInsert m (nsOf t) t →
          tools = (processed ++ [t]).filter
              (fun x => isGroupCandidate ts x && (nsOf x == ns)) ∧ tools ≠ [] := by
        intro ns tools hm
        rcases mem_nsInsert m (nsOf t) t h1 ns tools hm with
          ⟨hne, hmem⟩ | ⟨heq, v0, hv0, rfl⟩ | ⟨heq, hnot, rfl⟩
        · obtain ⟨he, hne'⟩ := h2 ns tools hmem
          refine ⟨?_, hne'⟩
          rw [List.filter_append, he]
          have hp : (isGroupCandidate ts t && (nsOf t == ns)) = false := by
            have : (nsOf t == ns) = false := by
              simp only [beq_eq_false_iff_ne, ne_eq]
              intro hx
              exact hne hx.symm
            simp [this]
          simp [List.filter_cons, hp]
        · subst heq
          obtain ⟨he, _⟩ := h2 _ v0 hv0
          refine ⟨?_, by simp⟩
          rw [List.filter_append, he]
          have hp : (isGroupCandidate ts t && (nsOf t == nsOf t)) = true := by
            simp [hc]
          simp [List.filter_cons, hp, hc]
        · subst heq
          refine ⟨?_, by simp⟩
          have hp : processed.filter
              (fun x => isGroupCandidate ts x && (nsOf x == nsOf t)) = [] := by
            rw [List.filter_eq_nil_iff]
            intro x hx hpx
            simp only [Bool.and_eq_true, beq_iff_eq] at hpx
            exact hnot (hpx.2 ▸ h3 x hx hpx.1)
          rw [List.filter_append, hp]
          have hpt : (isGroupCandidate ts t && (nsOf t == nsOf t)) = true := by
            simp [hc]
          simp [List.filter_cons, hpt, hc]
      have h3' : ∀ x ∈ processed ++ [t], isGroupCandidate ts x = true →
          nsOf x ∈ (nsInsert m (nsOf t) t).map Prod.fst := by
        intro x hx hcx
        rcases List.mem_append.mp hx with hx | hx
        · exact hsub _ (h3 x hx hcx)
        · rcases List.mem_singleton.mp hx with rfl
          exact hself
      have := ih (nsInsert m (nsOf t) t) (processed ++ [t]) h1' h2' h3'
      simpa [List.append_assoc] using this
    · rw [show bucketStep ts m t = m from by simp [bucketStep, hc]]
      have h2' : ∀ ns tools, (ns, tools) ∈ m →
          tools = (processed ++ [t]).filter
              (fun x => isGroupCandidate ts x && (nsOf x == ns)) ∧ tools ≠ [] := by
        intro ns tools hm
        obtain ⟨he, hne'⟩ := h2 ns tools hm
        refine ⟨?_, hne'⟩
        rw [List.filter_append, he]
        have hp : ∀ ns', (isGroupCandidate ts t && (nsOf t == ns')) = false := by
          intro ns'
          simp [hc]
        simp [List.filter_cons, hp]
      have h3' : ∀ x ∈ processed ++ [t], isGroupCandidate ts x = true →
          nsOf x ∈ m.map Prod.fst := by
        intro x hx hcx
        rcases List.mem_append.mp hx with hx | hx
        · exact h3 x hx hcx
        · rcases List.mem_singleton.mp hx with rfl
          exact absurd hcx (by simp [hc])
      have := ih m (processed ++ [t]) h1 h2' h3'
      simpa [List.append_assoc] using this

/-- Key uniqueness and bucket characterization for `mcpBuckets`. -/
theorem mcpBuckets_spec (ts : ToolNameSets) (l : List ToolUsageSummary) :
    ((mcpBuckets ts l).map Prod.fst).Nodup
      ∧ (∀ ns tools, (ns, tools) ∈ mcpBuckets ts l →
          tools = l.filter (fun t => isGroupCandidate ts t && (nsOf t == ns))
            ∧ tools ≠ [])
      ∧ (∀ t ∈ l, isGroupCandidate ts t = true →
          nsOf t ∈ (mcpBuckets ts l).map Prod.fst) := by
  have := buckets_inv ts l [] [] (by simp) (by simp) (by simp)
  rw [← mcpBuckets_eq_fold] at this
  simpa using this

-- ── Merged-aggregate field lemmas ───────────────────────────────────────────

/-- A left fold of additions is the sum. -/
theorem foldl_add_count (f : ToolUsageSummary → Nat) (l : List ToolUsageSummary) :
    ∀ a, l.foldl (fun s t => s + f t) a = a + (l.map f).sum := by
  induction l with
  | nil => simp
  | cons t l ih =>
    intro a
    rw [List.foldl_cons, ih]
    simp [List.sum_cons]
    omega

/-- The capped push loop takes a prefix of the pushed list. -/
theorem foldl_pushCapped (cap : Nat) (l : List ToolSample) :
    ∀ acc, l.foldl (fun a s => if a.length < cap then a ++ [s] else a) acc
      = acc ++ l.take (cap - acc.length) := by
  induction l with
  | nil => simp
  | cons s l ih =>
    intro acc
    rw [List.foldl_cons]
    by_cases hlt : acc.length < cap
    · rw [if_pos hlt, ih]
      have h1 : cap - acc.length = (cap - (acc ++ [s]).length) + 1 := by
        simp only [List.length_append, List.length_cons, List.length_nil]
        omega
      rw [h1, List.take_succ_cons, List.append_assoc, List.singleton_append]
    · rw [if_neg hlt, ih]
      have h0 : cap - acc.length = 0 := by omega
      rw [h0]
      simp

/-- The nested capped push loop over all member samples takes a prefix of the
concatenation. -/
theorem mergedSamples_take (cap : Nat) (tools : List ToolUsageSummary) :
    ∀ acc, tools.foldl
        (fun acc t => t.samples.foldl
          (fun a s => if a.length < cap then a ++ [s] else a) acc) acc
      = acc ++ (tools.flatMap (fun t => t.samples)).take (cap - acc.length) := by
  induction tools with
  | nil => simp
  | cons t ttools ih =>
    intro acc
    rw [List.foldl_cons, foldl_pushCapped, ih, List.flatMap_cons,
      List.take_append_eq_append_take, List.append_assoc]
    have harg : cap - (acc ++ t.samples.take (cap - acc.length)).length
        = cap - acc.length - t.samples.length := by
      simp only [List.length_append, List.length_take]
      omega
    rw [harg]

/-- A concrete structured MCP sample (category tag `mcp`). -/
def mcpSample : ToolSample := ⟨"m", some (.mcp "x" none none)⟩

/-- The spec's example aggregates. -/
def ghList : ToolUsageSummary :=
  { name := "mcp__github__list_issues", count := 3, samples := [mcpSample] }

def ghCreate : ToolUsageSummary :=
  { name := "mcp__github__create_issue", count := 2, samples := [mcpSample] }

def jiraSearch : ToolUsageSummary :=
  { name := "mcp__jira__search", count := 1, samples := [mcpSample] }

/-- C2: namespace grouping buckets exactly the mcp-category aggregates whose
name matches `mcp__<namespace>__<action>` by namespace (each bucket holds its
namespace's candidates in encounter order); non-candidates pass through
untouched in original order, with one entry per bucket appended after them; a
singleton bucket passes through unchanged, and a 2+-member bucket merges into
one synthetic aggregate whose count is the sum of member counts, whose error
count is the sum of member error counts and is omitted when that sum is zero,
and whose samples are the members' samples concatenated in encounter order
capped at 5. -/
theorem mcp_namespace_grouping (ts : ToolNameSets) (summaries : List ToolUsageSummary) :
    (groupMcpByNamespace ts summaries
        = summaries.filter (fun t => !(isGroupCandidate ts t))
          ++ (mcpBuckets ts summaries).map mergeNsBucket)
      ∧ (∀ ns tools, (ns, tools) ∈ mcpBuckets ts summaries →
          tools = summaries.filter (fun t => isGroupCandidate ts t && (nsOf t == ns))
            ∧ tools ≠ [])
      ∧ (∀ ns t, mergeNsBucket (ns, [t]) = t)
      ∧ (∀ ns tools, 2 ≤ tools.length →
            (mergeNsBucket (ns, tools)).name = "MCP: " ++ ns
          ∧ (mergeNsBucket (ns, tools)).count = (tools.map (fun t => t.count)).sum
          ∧ (mergeNsBucket (ns, tools)).samples
              = (tools.flatMap (fun t => t.samples)).take 5
          ∧ (mergeNsBucket (ns, tools)).errorCount
              = (if 0 < (tools.map (fun t => t.errorCount.getD 0)).sum
                then some ((tools.map (fun t => t.errorCount.getD 0)).sum)
                else none)) := by
  refine ⟨groupMcp_decomposition ts summaries, (mcpBuckets_spec ts summaries).2.1,
    fun ns t => rfl, ?_⟩
  intro ns tools hlen
  match tools, hlen with
  | a :: b :: rest, _ =>
    have hmerge : mergeNsBucket (ns, a :: b :: rest)
        = mkMergedAggregate ns (a :: b :: rest) := rfl
    rw [hmerge]
    refine ⟨rfl, ?_, ?_, ?_⟩
    · show (a :: b :: rest).foldl (fun s t => s + t.count) 0 = _
      rw [foldl_add_count (fun t => t.count)]
      simp
    · show (a :: b :: rest).foldl _ [] = _
      rw [mergedSamples_take]
      simp [MCP_GROUP_SAMPLE_CAP]
    · show (if 0 < (a :: b :: rest).foldl (fun s t => s + t.errorCount.getD 0) 0 then
          some ((a :: b :: rest).foldl (fun s t => s + t.errorCount.getD 0) 0)
        else none) = _
      rw [foldl_add_count (fun t => t.errorCount.getD 0)]
      simp

/-- C2 witness: the spec's example — `mcp__github__list_issues` (count 3) and
`mcp__github__create_issue` (count 2) merge into `MCP: github` with count 5
and the concatenated samples; `mcp__jira__search` (count 1) passes through
unchanged after it. -/
theorem mcp_namespace_grouping_witness :
    groupMcpByNamespace emptySets [ghList, ghCreate, jiraSearch]
      = [{ name := "MCP: github", count := 5, errorCount := none,
            samples := [mcpSample, mcpSample] }, jiraSearch] :=
  (mcp_namespace_grouping emptySets [ghList, ghCreate, jiraSearch]).1.trans (by decide)

-- ═══════════════════════════════════════════════════════════════════════════
-- C9 — idempotence of namespace grouping
-- ═══════════════════════════════════════════════════════════════════════════

/-- Concrete aggregates for the reordering counterexample: one singleton
namespace `a` seen first, then a mergeable namespace `b`. -/
def nsA : ToolUsageSummary := { name := "mcp__a__x", count := 1, samples := [mcpSample] }

def nsB1 : ToolUsageSummary := { name := "mcp__b__x", count := 3, samples := [mcpSample] }

def nsB2 : ToolUsageSummary := { name := "mcp__b__y", count := 2, samples := [mcpSample] }

/-- C9 (counterexample): grouping is NOT literally idempotent.  On
`[mcp__a__x, mcp__b__x, mcp__b__y]` the first pass yields
`[mcp__a__x, MCP: b]` (the singleton candidate is appended after the
pass-throughs, before the later-seen merged bucket), but the second pass
treats `MCP: b` as a pass-through and re-appends the still-candidate
`mcp__a__x` after it, yielding `[MCP: b, mcp__a__x]` — a different list. -/
theorem grouping_not_idempotent_counterexample :
    groupMcpByNamespace emptySets (groupMcpByNamespace emptySets [nsA, nsB1, nsB2])
      ≠ groupMcpByNamespace emptySets [nsA, nsB1, nsB2] := by
  decide

/-- A merged synthetic aggregate (named `MCP: <ns>`) is never a grouping
candidate again: its name does not start with `mcp__`. -/
theorem merged_not_candidate (ts : ToolNameSets) (ns : String)
    (tools : List ToolUsageSummary) :
    isGroupCandidate ts (mkMergedAggregate ns tools) = false := by
  have hsw : jsStartsWith ("MCP: " ++ ns) "mcp__" = false := rfl
  unfold isGroupCandidate
  rw [show (mkMergedAggregate ns tools).name = "MCP: " ++ ns from rfl, hsw]
  simp

/-- Members of every bucket are candidates of that bucket's namespace. -/
theorem buckets_members (ts : ToolNameSets) (l : List ToolUsageSummary) :
    ∀ b ∈ mcpBuckets ts l, b.2 ≠ []
      ∧ ∀ t ∈ b.2, isGroupCandidate ts t = true ∧ nsOf t = b.1 := by
  intro b hbmem
  obtain ⟨ns, tools⟩ := b
  obtain ⟨he, hne⟩ := (mcpBuckets_spec ts l).2.1 ns tools hbmem
  refine ⟨hne, ?_⟩
  intro t ht
  rw [he] at ht
  have := List.of_mem_filter ht
  simpa using this

/-- Inserting into the bucket map permutes the flattened members by one
appended element. -/
theorem nsInsert_flatMap_perm (m : List (String × List ToolUsageSummary))
    (ns : String) (t : ToolUsageSummary) :
    ((nsInsert m ns t).flatMap Prod.snd).Perm (m.flatMap Prod.snd ++ [t]) := by
  induction m with
  | nil => simp [nsInsert]
  | cons kv rest ih =>
    obtain ⟨k0, v0⟩ := kv
    by_cases hk : k0 == ns
    · rw [show nsInsert ((k0, v0) :: rest) ns t = (k0, v0 ++ [t]) :: rest from by
        simp [nsInsert, hk]]
      simp only [List.flatMap_cons]
      rw [List.append_assoc, List.append_assoc]
      exact List.Perm.append_left _ List.perm_append_comm
    · rw [show nsInsert ((k0, v0) :: rest) ns t = (k0, v0) :: nsInsert rest ns t from by
        simp [nsInsert, hk]]
      simp only [List.flatMap_cons]
      rw [List.append_assoc]
      exact List.Perm.append_left _ ih

/-- The flattened bucket members are a permutation of the candidate entries. -/
theorem bucketsFold_flatMap_perm (ts : ToolNameSets) (l : List ToolUsageSummary) :
    ∀ m, ((l.foldl (bucketStep ts) m).flatMap Prod.snd).Perm
      (m.flatMap Prod.snd ++ l.filter (fun t => isGroupCandidate ts t)) := by
  induction l with
  | nil => intro m; simp
  | cons t l ih =>
    intro m
    rw [List.foldl_cons]
    by_cases hc : isGroupCandidate ts t
    · rw [show bucketStep ts m t = nsInsert m (nsOf t) t from by simp [bucketStep, hc]]
      have step1 := ih (nsInsert m (nsOf t) t)
      have step2 : ((nsInsert m (nsOf t) t).flatMap Prod.snd
          ++ l.filter (fun t => isGroupCandidate ts t)).Perm
          ((m.flatMap Prod.snd ++ [t]) ++ l.filter (fun t => isGroupCandidate ts t)) :=
        List.Perm.append_right _ (nsInsert_flatMap_perm m (nsOf t) t)
      have step3 : (m.flatMap Prod.snd ++ [t])
          ++ l.filter (fun t => isGroupCandidate ts t)
          = m.flatMap Prod.snd
            ++ (t :: l).filter (fun t => isGroupCandidate ts t) := by
        rw [List.append_assoc, List.singleton_append]
        simp [List.filter_cons, hc]
      exact (step1.trans step2).trans (step3 ▸ List.Perm.refl _)
    · rw [show bucketStep ts m t = m from by simp [bucketStep, hc]]
      have step3 : (t :: l).filter (fun t => isGroupCandidate ts t)
          = l.filter (fun t => isGroupCandidate ts t) := by
        simp [List.filter_cons, hc]
      rw [step3]
      exact ih m

/-- When every bucket is a singleton, the per-bucket entries are exactly the
flattened members. -/
theorem map_merge_eq_flatMap (bs : List (String × List ToolUsageSummary))
    (h : ∀ b ∈ bs, ∃ t, b.2 = [t]) :
    bs.map mergeNsBucket = bs.flatMap Prod.snd := by
  induction bs with
  | nil => rfl
  | cons b rest ih =>
    obtain ⟨k, tools⟩ := b
    obtain ⟨t, ht⟩ := h (k, tools) (List.mem_cons_self _ _)
    simp only at ht
    subst ht
    rw [List.map_cons, List.flatMap_cons,
      ih (fun b hb => h b (List.mem_cons_of_mem _ hb))]
    rfl

/-- If no bucket can merge (all singletons), grouping permutes its input. -/
theorem groupMcp_perm_of_singletons (ts : ToolNameSets) (L : List ToolUsageSummary)
    (hs : ∀ ns tools, (ns, tools) ∈ mcpBuckets ts L → tools.length ≤ 1) :
    (groupMcpByNamespace ts L).Perm L := by
  rw [groupMcp_decomposition]
  have hsing : ∀ b ∈ mcpBuckets ts L, ∃ t, b.2 = [t] := by
    intro b hbm
    obtain ⟨hne, _⟩ := buckets_members ts L b hbm
    obtain ⟨ns, tools⟩ := b
    match tools, hne, hs ns tools hbm with
    | [t], _, _ => exact ⟨t, rfl⟩
  rw [map_merge_eq_flatMap _ hsing]
  have h1 : ((mcpBuckets ts L).flatMap Prod.snd).Perm
      (L.filter (fun t => isGroupCandidate ts t)) := by
    have := bucketsFold_flatMap_perm ts L []
    rw [← mcpBuckets_eq_fold] at this
    simpa using this
  have h2 : (L.filter (fun t => !(isGroupCandidate ts t))
      ++ (mcpBuckets ts L).flatMap Prod.snd).Perm
      (L.filter (fun t => !(isGroupCandidate ts t))
        ++ L.filter (fun t => isGroupCandidate ts t)) :=
    List.Perm.append_left _ h1
  refine h2.trans ?_
  have h3 := List.filter_append_perm (fun t => !(isGroupCandidate ts t)) L
  have h4 : L.filter (fun t => !(!(isGroupCandidate ts t)))
      = L.filter (fun t => isGroupCandidate ts t) := by
    simp
  rw [h4] at h3
  exact h3

/-- In the filtered per-bucket entries of a Nodup-keyed bucket list, at most
one entry can be a candidate of any fixed namespace. -/
theorem filter_map_merge_le_one (ts : ToolNameSets) (ns : String)
    (bs : List (String × List ToolUsageSummary))
    (hnd : (bs.map Prod.fst).Nodup)
    (hb : ∀ b ∈ bs, b.2 ≠ []
      ∧ ∀ t ∈ b.2, isGroupCandidate ts t = true ∧ nsOf t = b.1) :
    ((bs.map mergeNsBucket).filter
      (fun t => isGroupCandidate ts t && (nsOf t == ns))).length ≤ 1 := by
  induction bs with
  | nil => simp
  | cons b rest ih =>
    obtain ⟨k, tools⟩ := b
    have hnd' : (rest.map Prod.fst).Nodup := (List.nodup_cons.mp hnd).2
    have hk : k ∉ rest.map Prod.fst := (List.nodup_cons.mp hnd).1
    have hbr : ∀ b ∈ rest, b.2 ≠ []
        ∧ ∀ t ∈ b.2, isGroupCandidate ts t = true ∧ nsOf t = b.1 :=
      fun b hb' => hb b (List.mem_cons_of_mem _ hb')
    rw [List.map_cons, List.filter_cons]
    by_cases hp : (isGroupCandidate ts (mergeNsBucket (k, tools))
        && (nsOf (mergeNsBucket (k, tools)) == ns)) = true
    · rw [if_pos hp]
      have hcand := hb (k, tools) (List.mem_cons_self _ _)
      match tools, hcand with
      | [], hcand => exact absurd rfl hcand.1
      | [t], hcand =>
        have hkt : nsOf t = k := (hcand.2 t (List.mem_singleton_self t)).2
        have htn : nsOf t = ns := by
          have h5 := hp
          simp only [Bool.and_eq_true] at h5
          simpa [mergeNsBucket] using h5.2
        have hkn : k = ns := hkt.symm.trans htn
        have hrest : (rest.map mergeNsBucket).filter
            (fun t => isGroupCandidate ts t && (nsOf t == ns)) = [] := by
          rw [List.filter_eq_nil_iff]
          intro x hx hpx
          obtain ⟨b', hb', rfl⟩ := List.mem_map.mp hx
          obtain ⟨k', tools'⟩ := b'
          have hc' := hbr (k', tools') hb'
          match tools', hc' with
          | [], hc' => exact absurd rfl hc'.1
          | [t'], hc' =>
            have ht'k : nsOf t' = k' := (hc'.2 t' (List.mem_singleton_self t')).2
            have ht'n : nsOf t' = ns := by
              have h6 := hpx
              simp only [Bool.and_eq_true] at h6
              simpa [mergeNsBucket] using h6.2
            apply hk
            have hkk : k' = k := (ht'k.symm.trans ht'n).trans hkn.symm
            exact hkk ▸ List.mem_map.mpr ⟨(k', [t']), hb', rfl⟩
          | a :: c :: rest', hc' =>
            have hfalse : isGroupCandidate ts (mergeNsBucket (k', a :: c :: rest'))
                = false := merged_not_candidate ts k' (a :: c :: rest')
            rw [hfalse] at hpx
            simp at hpx
        rw [hrest]
        simp
      | a :: c :: rest', hcand =>
        exfalso
        have hfalse : isGroupCandidate ts (mergeNsBucket (k, a :: c :: rest'))
            = false := merged_not_candidate ts k (a :: c :: rest')
        rw [hfalse] at hp
        simp at hp
    · rw [if_neg hp]
      exact ih hnd' hbr

/-- C9 (amended): applying the grouping step to its own output performs no
further merges — every namespace bucket of the second pass is a singleton,
because merged synthetic entries are renamed (`MCP: <ns>`) so they no longer
match the `mcp__<namespace>__<action>` scheme and pass through, and the
remaining singleton candidates have pairwise-distinct namespaces.  The second
output is therefore a permutation of the first; it is not literally unchanged,
because the singleton candidates are again moved behind the entries the second
pass treats as pass-through (see the counterexample). -/
theorem grouping_no_further_merges (ts : ToolNameSets) (l : List ToolUsageSummary) :
    (∀ ns tools, (ns, tools) ∈ mcpBuckets ts (groupMcpByNamespace ts l) →
        tools.length ≤ 1)
      ∧ (groupMcpByNamespace ts (groupMcpByNamespace ts l)).Perm
          (groupMcpByNamespace ts l) := by
  have hpart1 : ∀ ns tools, (ns, tools) ∈ mcpBuckets ts (groupMcpByNamespace ts l) →
      tools.length ≤ 1 := by
    intro ns tools hmem
    obtain ⟨he, _⟩ := (mcpBuckets_spec ts (groupMcpByNamespace ts l)).2.1 ns tools hmem
    rw [he, groupMcp_decomposition, List.filter_append]
    have h1 : (l.filter (fun t => !(isGroupCandidate ts t))).filter
        (fun t => isGroupCandidate ts t && (nsOf t == ns)) = [] := by
      rw [List.filter_eq_nil_iff]
      intro x hx hpx
      have hnc := List.of_mem_filter hx
      have hpx' := hpx
      simp only [Bool.and_eq_true] at hpx'
      rw [hpx'.1] at hnc
      simp at hnc
    rw [h1, List.nil_append]
    exact filter_map_merge_le_one ts ns (mcpBuckets ts l) (mcpBuckets_spec ts l).1
      (buckets_members ts l)
  exact ⟨hpart1, groupMcp_perm_of_singletons ts _ hpart1⟩

/-- C9 witness: the amended theorem at the counterexample's input — the second
pass is a permutation of the first pass's output. -/
theorem grouping_no_further_merges_witness :
    (groupMcpByNamespace emptySets (groupMcpByNamespace emptySets [nsA, nsB1, nsB2])).Perm
      (groupMcpByNamespace emptySets [nsA, nsB1, nsB2]) :=
  (grouping_no_further_merges emptySets [nsA, nsB1, nsB2]).2

-- ═══════════════════════════════════════════════════════════════════════════
-- C4 — sorting of aggregates is total and stable
-- ═══════════════════════════════════════════════════════════════════════════

/-- The eleven canonical sets in the iteration order of `buildCategoryOrder`'s
mapping. -/
def allToolSets (ts : ToolNameSets) : List (List String) :=
  [ts.SHELL_TOOLS, ts.WRITE_TOOLS, ts.EDIT_TOOLS, ts.READ_TOOLS, ts.GREP_TOOLS,
    ts.GLOB_TOOLS, ts.SEARCH_TOOLS, ts.FETCH_TOOLS, ts.TASK_TOOLS,
    ts.TASK_OUTPUT_TOOLS, ts.ASK_TOOLS]

/-- `s` shares no member with any set of `rest`. -/
def disjointFrom (s : List String) (rest : List (List String)) : Bool :=
  rest.all (fun t => s.all (fun x => !(t.contains x)))

/-- Pairwise disjointness of a family of sets. -/
def pairwiseDisjoint : List (List String) → Bool
  | [] => true
  | s :: rest => disjointFrom s rest && pairwiseDisjoint rest

/-- Unfolding one layer of `pairwiseDisjoint`. -/
theorem pairwiseDisjoint_cons {s : List String} {rest : List (List String)}
    (h : pairwiseDisjoint (s :: rest) = true) :
    (∀ t ∈ rest, ∀ x ∈ s, ¬(x ∈ t)) ∧ pairwiseDisjoint rest = true := by
  simp only [pairwiseDisjoint, Bool.and_eq_true, disjointFrom, List.all_eq_true] at h
  obtain ⟨h1, h2⟩ := h
  refine ⟨?_, h2⟩
  intro t ht x hx
  have := h1 t ht x hx
  simpa using this

/-- A fold of last-wins assignments with no matching key keeps its state. -/
theorem foldl_assign_no_match (name : String) (ps : List (String × Nat))
    (init : Option Nat) (h : ∀ kv ∈ ps, ¬(kv.1 = name)) :
    ps.foldl (fun acc kv => if kv.1 == name then some kv.2 else acc) init = init := by
  induction ps generalizing init with
  | nil => rfl
  | cons kv ps ih =>
    rw [List.foldl_cons]
    have hk : ¬((kv.1 == name) = true) := by
      simpa using h kv (List.mem_cons_self _ _)
    rw [if_neg hk]
    exact ih _ (fun kv' h' => h kv' (List.mem_cons_of_mem _ h'))

/-- A fold of last-wins assignments in which every matching key carries the
same value `v`, and at least one key matches, yields `some v`. -/
theorem foldl_assign_unique (name : String) (v : Nat) :
    ∀ (ps : List (String × Nat)) (init : Option Nat),
      (∀ kv ∈ ps, kv.1 = name → kv.2 = v) → (∃ kv ∈ ps, kv.1 = name) →
      ps.foldl (fun acc kv => if kv.1 == name then some kv.2 else acc) init = some v := by
  intro ps
  induction ps with
  | nil =>
    intro init _ h2
    rcases h2 with ⟨kv, h, _⟩
    exact absurd h (List.not_mem_nil _)
  | cons kv ps ih =>
    intro init h1 h2
    rw [List.foldl_cons]
    by_cases hrest : ∃ kv' ∈ ps, kv'.1 = name
    · have htail := fun kv' h' => h1 kv' (List.mem_cons_of_mem _ h')
      by_cases hk : (kv.1 == name) = true
      · rw [if_pos hk]
        exact ih _ htail hrest
      · rw [if_neg hk]
        exact ih _ htail hrest
    · have hk : kv.1 = name := by
        rcases h2 with ⟨kv', h', he⟩
        rcases List.mem_cons.mp h' with rfl | h''
        · exact he
        · exact absurd ⟨kv', h'', he⟩ hrest
      have hkb : (kv.1 == name) = true := by simpa using hk
      rw [if_pos hkb,
        foldl_assign_no_match name ps _ (fun kv' h' he => hrest ⟨kv', h', he⟩),
        h1 kv (List.mem_cons_self _ _) hk]

/-- Case analysis of membership in the flattened mapping pairs. -/
theorem mem_categoryOrderPairs_cases (ts : ToolNameSets) (kv : String × Nat)
    (h : kv ∈ categoryOrderPairs ts) :
    (∃ n, n ∈ ts.SHELL_TOOLS ∧ kv = (n, 0))
      ∨ (∃ n, n ∈ ts.WRITE_TOOLS ∧ kv = (n, 1))
      ∨ (∃ n, n ∈ ts.EDIT_TOOLS ∧ kv = (n, 2))
      ∨ (∃ n, n ∈ ts.READ_TOOLS ∧ kv = (n, 3))
      ∨ (∃ n, n ∈ ts.GREP_TOOLS ∧ kv = (n, 4))
      ∨ (∃ n, n ∈ ts.GLOB_TOOLS ∧ kv = (n, 5))
      ∨ (∃ n, n ∈ ts.SEARCH_TOOLS ∧ kv = (n, 6))
      ∨ (∃ n, n ∈ ts.FETCH_TOOLS ∧ kv = (n, 7))
      ∨ (∃ n, n ∈ ts.TASK_TOOLS ∧ kv = (n, 8))
      ∨ (∃ n, n ∈ ts.TASK_OUTPUT_TOOLS ∧ kv = (n, 8))
      ∨ (∃ n, n ∈ ts.ASK_TOOLS ∧ kv = (n, 9)) := by
  unfold categoryOrderPairs at h
  rcases List.mem_append.mp h with h | h
  ·
    rcases List.mem_append.mp h with h | h
    ·
      rcases List.mem_append.mp h with h | h
      ·
        rcases List.mem_append.mp h with h | h
        ·
          rcases List.mem_append.mp h with h | h
          ·
            rcases List.mem_append.mp h with h | h
            ·
              rcases List.mem_append.mp h with h | h
              ·
                rcases List.mem_append.mp h with h | h
                ·
                  rcases List.mem_append.mp h with h | h
                  ·
                    rcases List.mem_append.mp h with h | h
                    ·
                      obtain ⟨n, hn, rfl⟩ := List.mem_map.mp h
                      exact Or.inl ⟨n, hn, rfl⟩
                    ·
                      obtain ⟨n, hn, rfl⟩ := List.mem_map.mp h
                      exact Or.inr (Or.inl ⟨n, hn, rfl⟩)
                  ·
                    obtain ⟨n, hn, rfl⟩ := List.mem_map.mp h
                    exact Or.inr (Or.inr (Or.inl ⟨n, hn, rfl⟩))
                ·
                  obtain ⟨n, hn, rfl⟩ := List.mem_map.mp h
                  exact Or.inr (Or.inr (Or.inr (Or.inl ⟨n, hn, rfl⟩)))
              ·
                obtain ⟨n, hn, rfl⟩ := List.mem_map.mp h
                exact Or.inr (Or.inr (Or.inr (Or.inr (Or.inl ⟨n, hn, rfl⟩))))
            ·
              obtain ⟨n, hn, rfl⟩ := List.mem_map.mp h
              exact Or.inr (Or.inr (Or.inr (Or.inr (Or.inr (Or.inl ⟨n, hn, rfl⟩)))))
          ·
            obtain ⟨n, hn, rfl⟩ := List.mem_map.mp h
            exact Or.inr (Or.inr (Or.inr (Or.inr (Or.inr (Or.inr (Or.inl ⟨n, hn, rfl⟩))))))
        ·
          obtain ⟨n, hn, rfl⟩ := List.mem_map.mp h
          exact Or.inr (Or.inr (Or.inr (Or.inr (Or.inr (Or.inr (Or.inr (Or.inl ⟨n, hn, rfl⟩)))))))
      ·
        obtain ⟨n, hn, rfl⟩ := List.mem_map.mp h
        exact Or.inr (Or.inr (Or.inr (Or.inr (Or.inr (Or.inr (Or.inr (Or.inr (Or.inl ⟨n, hn, rfl⟩))))))))
    ·
      obtain ⟨n, hn, rfl⟩ := List.mem_map.mp h
      exact Or.inr (Or.inr (Or.inr (Or.inr (Or.inr (Or.inr (Or.inr (Or.inr (Or.inr (Or.inl ⟨n, hn, rfl⟩)))))))))
  ·
    obtain ⟨n, hn, rfl⟩ := List.mem_map.mp h
    exact Or.inr (Or.inr (Or.inr (Or.inr (Or.inr (Or.inr (Or.inr (Or.inr (Or.inr (Or.inr (⟨n, hn, rfl⟩))))))))))

/-- Stability of one ordered insertion for the key-based relation: the
filtered occurrences of any fixed priority value gain `a` at the front iff
`a` has that priority. -/
theorem orderedInsert_filter_key (ts : ToolNameSets) (v : Nat)
    (a : ToolUsageSummary) (l : List ToolUsageSummary) :
    (List.orderedInsert
        (fun x y => getCategoryOrder ts x.name ≤ getCategoryOrder ts y.name) a l).filter
        (fun t => getCategoryOrder ts t.name == v)
      = if (getCategoryOrder ts a.name == v) = true then
          a :: l.filter (fun t => getCategoryOrder ts t.name == v)
        else l.filter (fun t => getCategoryOrder ts t.name == v) := by
  induction l with
  | nil =>
    rw [List.orderedInsert, List.filter_cons]
  | cons b l ih =>
    rw [List.orderedInsert]
    by_cases hr : getCategoryOrder ts a.name ≤ getCategoryOrder ts b.name
    · rw [if_pos hr, List.filter_cons]
    · rw [if_neg hr, List.filter_cons, List.filter_cons, ih]
      by_cases hpa : (getCategoryOrder ts a.name == v) = true
      · have hkb : (getCategoryOrder ts b.name == v) = false := by
          have hlt : getCategoryOrder ts b.name < getCategoryOrder ts a.name :=
            Nat.lt_of_not_le hr
          have hka : getCategoryOrder ts a.name = v := by simpa using hpa
          simp only [beq_eq_false_iff_ne, ne_eq]
          omega
        simp [hpa, hkb]
      · have hpa' : (getCategoryOrder ts a.name == v) = false :=
          Bool.not_eq_true _ ▸ (Bool.eq_false_iff.mpr (fun h => hpa h))
        simp [hpa']

/-- Stability of the whole sort: filtering any fixed priority value commutes
with sorting, i.e. ties keep their original relative order. -/
theorem sortSummaries_filter_key (ts : ToolNameSets) (v : Nat)
    (l : List ToolUsageSummary) :
    (sortSummaries ts l).filter (fun t => getCategoryOrder ts t.name == v)
      = l.filter (fun t => getCategoryOrder ts t.name == v) := by
  unfold sortSummaries
  induction l with
  | nil => rfl
  | cons a l ih =>
    rw [List.insertionSort, orderedInsert_filter_key, ih, List.filter_cons]

/-- C4: sorting by category priority is total and stable — the sorted list is
a permutation of the input, pairwise ordered by priority, and each priority
class keeps its original relative order; under pairwise-disjoint canonical
sets the priorities are the fixed order shell 0, write 1, edit 2, read 3,
grep 4, glob 5, search 6, fetch 7, task/task-output 8, ask 9, and any name
absent from every canonical set receives priority 10 (sorts last). -/
theorem category_sort_total_stable (ts : ToolNameSets) (l : List ToolUsageSummary)
    (hd : pairwiseDisjoint (allToolSets ts) = true) :
    ((sortSummaries ts l).Perm l)
      ∧ (List.Sorted (fun a b => getCategoryOrder ts a.name ≤ getCategoryOrder ts b.name)
        (sortSummaries ts l))
      ∧ (∀ v : Nat, (sortSummaries ts l).filter (fun t => getCategoryOrder ts t.name == v)
        = l.filter (fun t => getCategoryOrder ts t.name == v))
      ∧ (∀ name ∈ ts.SHELL_TOOLS, getCategoryOrder ts name = 0)
      ∧ (∀ name ∈ ts.WRITE_TOOLS, getCategoryOrder ts name = 1)
      ∧ (∀ name ∈ ts.EDIT_TOOLS, getCategoryOrder ts name = 2)
      ∧ (∀ name ∈ ts.READ_TOOLS, getCategoryOrder ts name = 3)
      ∧ (∀ name ∈ ts.GREP_TOOLS, getCategoryOrder ts name = 4)
      ∧ (∀ name ∈ ts.GLOB_TOOLS, getCategoryOrder ts name = 5)
      ∧ (∀ name ∈ ts.SEARCH_TOOLS, getCategoryOrder ts name = 6)
      ∧ (∀ name ∈ ts.FETCH_TOOLS, getCategoryOrder ts name = 7)
      ∧ (∀ name ∈ ts.TASK_TOOLS, getCategoryOrder ts name = 8)
      ∧ (∀ name ∈ ts.TASK_OUTPUT_TOOLS, getCategoryOrder ts name = 8)
      ∧ (∀ name ∈ ts.ASK_TOOLS, getCategoryOrder ts name = 9)
      ∧ (∀ name, name ∉ ts.SHELL_TOOLS → name ∉ ts.WRITE_TOOLS → name ∉ ts.EDIT_TOOLS → name ∉ ts.READ_TOOLS → name ∉ ts.GREP_TOOLS → name ∉ ts.GLOB_TOOLS → name ∉ ts.SEARCH_TOOLS → name ∉ ts.FETCH_TOOLS → name ∉ ts.TASK_TOOLS → name ∉ ts.TASK_OUTPUT_TOOLS → name ∉ ts.ASK_TOOLS →
        getCategoryOrder ts name = 10) := by
  obtain ⟨d0, hd⟩ := pairwiseDisjoint_cons hd
  obtain ⟨d1, hd⟩ := pairwiseDisjoint_cons hd
  obtain ⟨d2, hd⟩ := pairwiseDisjoint_cons hd
  obtain ⟨d3, hd⟩ := pairwiseDisjoint_cons hd
  obtain ⟨d4, hd⟩ := pairwiseDisjoint_cons hd
  obtain ⟨d5, hd⟩ := pairwiseDisjoint_cons hd
  obtain ⟨d6, hd⟩ := pairwiseDisjoint_cons hd
  obtain ⟨d7, hd⟩ := pairwiseDisjoint_cons hd
  obtain ⟨d8, hd⟩ := pairwiseDisjoint_cons hd
  obtain ⟨d9, hd⟩ := pairwiseDisjoint_cons hd
  refine ⟨?_, ?_, ?_, ?_, ?_, ?_, ?_, ?_, ?_, ?_, ?_, ?_, ?_, ?_, ?_⟩
  · exact List.perm_insertionSort _ l
  · haveI : IsTotal ToolUsageSummary
        (fun a b => getCategoryOrder ts a.name ≤ getCategoryOrder ts b.name) :=
      ⟨fun a b => Nat.le_total _ _⟩
    haveI : IsTrans ToolUsageSummary
        (fun a b => getCategoryOrder ts a.name ≤ getCategoryOrder ts b.name) :=
      ⟨fun a b c => Nat.le_trans⟩
    exact List.sorted_insertionSort _ l
  · exact fun v => sortSummaries_filter_key ts v l
  · intro name hmem
    have hex : ∃ kv ∈ categoryOrderPairs ts, kv.1 = name :=
      ⟨(name, 0), List.mem_append_left _ (List.mem_append_left _ (List.mem_append_left _ (List.mem_append_left _ (List.mem_append_left _ (List.mem_append_left _ (List.mem_append_left _ (List.mem_append_left _ (List.mem_append_left _ (List.mem_append_left _ (List.mem_map.mpr ⟨name, hmem, rfl⟩)))))))))), rfl⟩
    have huniq : ∀ kv ∈ categoryOrderPairs ts, kv.1 = name → kv.2 = 0 := by
      intro kv hkv he
      rcases mem_categoryOrderPairs_cases ts kv hkv with ⟨n, hn, rfl⟩ | ⟨n, hn, rfl⟩ | ⟨n, hn, rfl⟩ | ⟨n, hn, rfl⟩ | ⟨n, hn, rfl⟩ | ⟨n, hn, rfl⟩ | ⟨n, hn, rfl⟩ | ⟨n, hn, rfl⟩ | ⟨n, hn, rfl⟩ | ⟨n, hn, rfl⟩ | ⟨n, hn, rfl⟩
      · rfl
      · have he' : n = name := he
        exact absurd (he' ▸ hn) (d0 ts.WRITE_TOOLS (by simp) name hmem)
      · have he' : n = name := he
        exact absurd (he' ▸ hn) (d0 ts.EDIT_TOOLS (by simp) name hmem)
      · have he' : n = name := he
        exact absurd (he' ▸ hn) (d0 ts.READ_TOOLS (by simp) name hmem)
      · have he' : n = name := he
        exact absurd (he' ▸ hn) (d0 ts.GREP_TOOLS (by simp) name hmem)
      · have he' : n = name := he
        exact absurd (he' ▸ hn) (d0 ts.GLOB_TOOLS (by simp) name hmem)
      · have he' : n = name := he
        exact absurd (he' ▸ hn) (d0 ts.SEARCH_TOOLS (by simp) name hmem)
      · have he' : n = name := he
        exact absurd (he' ▸ hn) (d0 ts.FETCH_TOOLS (by simp) name hmem)
      · have he' : n = name := he
        exact absurd (he' ▸ hn) (d0 ts.TASK_TOOLS (by simp) name hmem)
      · have he' : n = name := he
        exact absurd (he' ▸ hn) (d0 ts.TASK_OUTPUT_TOOLS (by simp) name hmem)
      · have he' : n = name := he
        exact absurd (he' ▸ hn) (d0 ts.ASK_TOOLS (by simp) name hmem)
    unfold getCategoryOrder buildCategoryOrder
    rw [foldl_assign_unique name 0 (categoryOrderPairs ts) none huniq hex]
    rfl
  · intro name hmem
    have hex : ∃ kv ∈ categoryOrderPairs ts, kv.1 = name :=
      ⟨(name, 1), List.mem_append_left _ (List.mem_append_left _ (List.mem_append_left _ (List.mem_append_left _ (List.mem_append_left _ (List.mem_append_left _ (List.mem_append_left _ (List.mem_append_left _ (List.mem_append_left _ (List.mem_append_right _ (List.mem_map.mpr ⟨name, hmem, rfl⟩)))))))))), rfl⟩
    have huniq : ∀ kv ∈ categoryOrderPairs ts, kv.1 = name → kv.2 = 1 := by
      intro kv hkv he
      rcases mem_categoryOrderPairs_cases ts kv hkv with ⟨n, hn, rfl⟩ | ⟨n, hn, rfl⟩ | ⟨n, hn, rfl⟩ | ⟨n, hn, rfl⟩ | ⟨n, hn, rfl⟩ | ⟨n, hn, rfl⟩ | ⟨n, hn, rfl⟩ | ⟨n, hn, rfl⟩ | ⟨n, hn, rfl⟩ | ⟨n, hn, rfl⟩ | ⟨n, hn, rfl⟩
      · have he' : n = name := he
        exact absurd hmem (d0 ts.WRITE_TOOLS (by simp) name (he' ▸ hn))
      · rfl
      · have he' : n = name := he
        exact absurd (he' ▸ hn) (d1 ts.EDIT_TOOLS (by simp) name hmem)
      · have he' : n = name := he
        exact absurd (he' ▸ hn) (d1 ts.READ_TOOLS (by simp) name hmem)
      · have he' : n = name := he
        exact absurd (he' ▸ hn) (d1 ts.GREP_TOOLS (by simp) name hmem)
      · have he' : n = name := he
        exact absurd (he' ▸ hn) (d1 ts.GLOB_TOOLS (by simp) name hmem)
      · have he' : n = name := he
        exact absurd (he' ▸ hn) (d1 ts.SEARCH_TOOLS (by simp) name hmem)
      · have he' : n = name := he
        exact absurd (he' ▸ hn) (d1 ts.FETCH_TOOLS (by simp) name hmem)
      · have he' : n = name := he
        exact absurd (he' ▸ hn) (d1 ts.TASK_TOOLS (by simp) name hmem)
      · have he' : n = name := he
        exact absurd (he' ▸ hn) (d1 ts.TASK_OUTPUT_TOOLS (by simp) name hmem)
      · have he' : n = name := he
        exact absurd (he' ▸ hn) (d1 ts.ASK_TOOLS (by simp) name hmem)
    unfold getCategoryOrder buildCategoryOrder
    rw [foldl_assign_unique name 1 (categoryOrderPairs ts) none huniq hex]
    rfl
  · intro name hmem
    have hex : ∃ kv ∈ categoryOrderPairs ts, kv.1 = name :=
      ⟨(name, 2), List.mem_append_left _ (List.mem_append_left _ (List.mem_append_left _ (List.mem_append_left _ (List.mem_append_left _ (List.mem_append_left _ (List.mem_append_left _ (List.mem_append_left _ (List.mem_append_right _ (List.mem_map.mpr ⟨name, hmem, rfl⟩))))))))), rfl⟩
    have huniq : ∀ kv ∈ categoryOrderPairs ts, kv.1 = name → kv.2 = 2 := by
      intro kv hkv he
      rcases mem_categoryOrderPairs_cases ts kv hkv with ⟨n, hn, rfl⟩ | ⟨n, hn, rfl⟩ | ⟨n, hn, rfl⟩ | ⟨n, hn, rfl⟩ | ⟨n, hn, rfl⟩ | ⟨n, hn, rfl⟩ | ⟨n, hn, rfl⟩ | ⟨n, hn, rfl⟩ | ⟨n, hn, rfl⟩ | ⟨n, hn, rfl⟩ | ⟨n, hn, rfl⟩
      · have he' : n = name := he
        exact absurd hmem (d0 ts.EDIT_TOOLS (by simp) name (he' ▸ hn))
      · have he' : n = name := he
        exact absurd hmem (d1 ts.EDIT_TOOLS (by simp) name (he' ▸ hn))
      · rfl
      · have he' : n = name := he
        exact absurd (he' ▸ hn) (d2 ts.READ_TOOLS (by simp) name hmem)
      · have he' : n = name := he
        exact absurd (he' ▸ hn) (d2 ts.GREP_TOOLS (by simp) name hmem)
      · have he' : n = name := he
        exact absurd (he' ▸ hn) (d2 ts.GLOB_TOOLS (by simp) name hmem)
      · have he' : n = name := he
        exact absurd (he' ▸ hn) (d2 ts.SEARCH_TOOLS (by simp) name hmem)
      · have he' : n = name := he
        exact absurd (he' ▸ hn) (d2 ts.FETCH_TOOLS (by simp) name hmem)
      · have he' : n = name := he
        exact absurd (he' ▸ hn) (d2 ts.TASK_TOOLS (by simp) name hmem)
      · have he' : n = name := he
        exact absurd (he' ▸ hn) (d2 ts.TASK_OUTPUT_TOOLS (by simp) name hmem)
      · have he' : n = name := he
        exact absurd (he' ▸ hn) (d2 ts.ASK_TOOLS (by simp) name hmem)
    unfold getCategoryOrder buildCategoryOrder
    rw [foldl_assign_unique name 2 (categoryOrderPairs ts) none huniq hex]
    rfl
  · intro name hmem
    have hex : ∃ kv ∈ categoryOrderPairs ts, kv.1 = name :=
      ⟨(name, 3), List.mem_append_left _ (List.mem_append_left _ (List.mem_append_left _ (List.mem_append_left _ (List.mem_append_left _ (List.mem_append_left _ (List.mem_append_left _ (List.mem_append_right _ (List.mem_map.mpr ⟨name, hmem, rfl⟩)))))))), rfl⟩
    have huniq : ∀ kv ∈ categoryOrderPairs ts, kv.1 = name → kv.2 = 3 := by
      intro kv hkv he
      rcases mem_categoryOrderPairs_cases ts kv hkv with ⟨n, hn, rfl⟩ | ⟨n, hn, rfl⟩ | ⟨n, hn, rfl⟩ | ⟨n, hn, rfl⟩ | ⟨n, hn, rfl⟩ | ⟨n, hn, rfl⟩ | ⟨n, hn, rfl⟩ | ⟨n, hn, rfl⟩ | ⟨n, hn, rfl⟩ | ⟨n, hn, rfl⟩ | ⟨n, hn, rfl⟩
      · have he' : n = name := he
        exact absurd hmem (d0 ts.READ_TOOLS (by simp) name (he' ▸ hn))
      · have he' : n = name := he
        exact absurd hmem (d1 ts.READ_TOOLS (by simp) name (he' ▸ hn))
      · have he' : n = name := he
        exact absurd hmem (d2 ts.READ_TOOLS (by simp) name (he' ▸ hn))
      · rfl
      · have he' : n = name := he
        exact absurd (he' ▸ hn) (d3 ts.GREP_TOOLS (by simp) name hmem)
      · have he' : n = name := he
        exact absurd (he' ▸ hn) (d3 ts.GLOB_TOOLS (by simp) name hmem)
      · have he' : n = name := he
        exact absurd (he' ▸ hn) (d3 ts.SEARCH_TOOLS (by simp) name hmem)
      · have he' : n = name := he
        exact absurd (he' ▸ hn) (d3 ts.FETCH_TOOLS (by simp) name hmem)
      · have he' : n = name := he
        exact absurd (he' ▸ hn) (d3 ts.TASK_TOOLS (by simp) name hmem)
      · have he' : n = name := he
        exact absurd (he' ▸ hn) (d3 ts.TASK_OUTPUT_TOOLS (by simp) name hmem)
      · have he' : n = name := he
        exact absurd (he' ▸ hn) (d3 ts.ASK_TOOLS (by simp) name hmem)
    unfold getCategoryOrder buildCategoryOrder
    rw [foldl_assign_unique name 3 (categoryOrderPairs ts) none huniq hex]
    rfl
  · intro name hmem
    have hex : ∃ kv ∈ categoryOrderPairs ts, kv.1 = name :=
      ⟨(name, 4), List.mem_append_left _ (List.mem_append_left _ (List.mem_append_left _ (List.mem_append_left _ (List.mem_append_left _ (List.mem_append_left _ (List.mem_append_right _ (List.mem_map.mpr ⟨name, hmem, rfl⟩))))))), rfl⟩
    have huniq : ∀ kv ∈ categoryOrderPairs ts, kv.1 = name → kv.2 = 4 := by
      intro kv hkv he
      rcases mem_categoryOrderPairs_cases ts kv hkv with ⟨n, hn, rfl⟩ | ⟨n, hn, rfl⟩ | ⟨n, hn, rfl⟩ | ⟨n, hn, rfl⟩ | ⟨n, hn, rfl⟩ | ⟨n, hn, rfl⟩ | ⟨n, hn, rfl⟩ | ⟨n, hn, rfl⟩ | ⟨n, hn, rfl⟩ | ⟨n, hn, rfl⟩ | ⟨n, hn, rfl⟩
      · have he' : n = name := he
        exact absurd hmem (d0 ts.GREP_TOOLS (by simp) name (he' ▸ hn))
      · have he' : n = name := he
        exact absurd hmem (d1 ts.GREP_TOOLS (by simp) name (he' ▸ hn))
      · have he' : n = name := he
        exact absurd hmem (d2 ts.GREP_TOOLS (by simp) name (he' ▸ hn))
      · have he' : n = name := he
        exact absurd hmem (d3 ts.GREP_TOOLS (by simp) name (he' ▸ hn))
      · rfl
      · have he' : n = name := he
        exact absurd (he' ▸ hn) (d4 ts.GLOB_TOOLS (by simp) name hmem)
      · have he' : n = name := he
        exact absurd (he' ▸ hn) (d4 ts.SEARCH_TOOLS (by simp) name hmem)
      · have he' : n = name := he
        exact absurd (he' ▸ hn) (d4 ts.FETCH_TOOLS (by simp) name hmem)
      · have he' : n = name := he
        exact absurd (he' ▸ hn) (d4 ts.TASK_TOOLS (by simp) name hmem)
      · have he' : n = name := he
        exact absurd (he' ▸ hn) (d4 ts.TASK_OUTPUT_TOOLS (by simp) name hmem)
      · have he' : n = name := he
        exact absurd (he' ▸ hn) (d4 ts.ASK_TOOLS (by simp) name hmem)
    unfold getCategoryOrder buildCategoryOrder
    rw [foldl_assign_unique name 4 (categoryOrderPairs ts) none huniq hex]
    rfl
  · intro name hmem
    have hex : ∃ kv ∈ categoryOrderPairs ts, kv.1 = name :=
      ⟨(name, 5), List.mem_append_left _ (List.mem_append_left _ (List.mem_append_left _ (List.mem_append_left _ (List.mem_append_left _ (List.mem_append_right _ (List.mem_map.mpr ⟨name, hmem, rfl⟩)))))), rfl⟩
    have huniq : ∀ kv ∈ categoryOrderPairs ts, kv.1 = name → kv.2 = 5 := by
      intro kv hkv he
      rcases mem_categoryOrderPairs_cases ts kv hkv with ⟨n, hn, rfl⟩ | ⟨n, hn, rfl⟩ | ⟨n, hn, rfl⟩ | ⟨n, hn, rfl⟩ | ⟨n, hn, rfl⟩ | ⟨n, hn, rfl⟩ | ⟨n, hn, rfl⟩ | ⟨n, hn, rfl⟩ | ⟨n, hn, rfl⟩ | ⟨n, hn, rfl⟩ | ⟨n, hn, rfl⟩
      · have he' : n = name := he
        exact absurd hmem (d0 ts.GLOB_TOOLS (by simp) name (he' ▸ hn))
      · have he' : n = name := he
        exact absurd hmem (d1 ts.GLOB_TOOLS (by simp) name (he' ▸ hn))
      · have he' : n = name := he
        exact absurd hmem (d2 ts.GLOB_TOOLS (by simp) name (he' ▸ hn))
      · have he' : n = name := he
        exact absurd hmem (d3 ts.GLOB_TOOLS (by simp) name (he' ▸ hn))
      · have he' : n = name := he
        exact absurd hmem (d4 ts.GLOB_TOOLS (by simp) name (he' ▸ hn))
      · rfl
      · have he' : n = name := he
        exact absurd (he' ▸ hn) (d5 ts.SEARCH_TOOLS (by simp) name hmem)
      · have he' : n = name := he
        exact absurd (he' ▸ hn) (d5 ts.FETCH_TOOLS (by simp) name hmem)
      · have he' : n = name := he
        exact absurd (he' ▸ hn) (d5 ts.TASK_TOOLS (by simp) name hmem)
      · have he' : n = name := he
        exact absurd (he' ▸ hn) (d5 ts.TASK_OUTPUT_TOOLS (by simp) name hmem)
      · have he' : n = name := he
        exact absurd (he' ▸ hn) (d5 ts.ASK_TOOLS (by simp) name hmem)
    unfold getCategoryOrder buildCategoryOrder
    rw [foldl_assign_unique name 5 (categoryOrderPairs ts) none huniq hex]
    rfl
  · intro name hmem
    have hex : ∃ kv ∈ categoryOrderPairs ts, kv.1 = name :=
      ⟨(name, 6), List.mem_append_left _ (List.mem_append_left _ (List.mem_append_left _ (List.mem_append_left _ (List.mem_append_right _ (List.mem_map.mpr ⟨name, hmem, rfl⟩))))), rfl⟩
    have huniq : ∀ kv ∈ categoryOrderPairs ts, kv.1 = name → kv.2 = 6 := by
      intro kv hkv he
      rcases mem_categoryOrderPairs_cases ts kv hkv with ⟨n, hn, rfl⟩ | ⟨n, hn, rfl⟩ | ⟨n, hn, rfl⟩ | ⟨n, hn, rfl⟩ | ⟨n, hn, rfl⟩ | ⟨n, hn, rfl⟩ | ⟨n, hn, rfl⟩ | ⟨n, hn, rfl⟩ | ⟨n, hn, rfl⟩ | ⟨n, hn, rfl⟩ | ⟨n, hn, rfl⟩
      · have he' : n = name := he
        exact absurd hmem (d0 ts.SEARCH_TOOLS (by simp) name (he' ▸ hn))
      · have he' : n = name := he
        exact absurd hmem (d1 ts.SEARCH_TOOLS (by simp) name (he' ▸ hn))
      · have he' : n = name := he
        exact absurd hmem (d2 ts.SEARCH_TOOLS (by simp) name (he' ▸ hn))
      · have he' : n = name := he
        exact absurd hmem (d3 ts.SEARCH_TOOLS (by simp) name (he' ▸ hn))
      · have he' : n = name := he
        exact absurd hmem (d4 ts.SEARCH_TOOLS (by simp) name (he' ▸ hn))
      · have he' : n = name := he
        exact absurd hmem (d5 ts.SEARCH_TOOLS (by simp) name (he' ▸ hn))
      · rfl
      · have he' : n = name := he
        exact absurd (he' ▸ hn) (d6 ts.FETCH_TOOLS (by simp) name hmem)
      · have he' : n = name := he
        exact absurd (he' ▸ hn) (d6 ts.TASK_TOOLS (by simp) name hmem)
      · have he' : n = name := he
        exact absurd (he' ▸ hn) (d6 ts.TASK_OUTPUT_TOOLS (by simp) name hmem)
      · have he' : n = name := he
        exact absurd (he' ▸ hn) (d6 ts.ASK_TOOLS (by simp) name hmem)
    unfold getCategoryOrder buildCategoryOrder
    rw [foldl_assign_unique name 6 (categoryOrderPairs ts) none huniq hex]
    rfl
  · intro name hmem
    have hex : ∃ kv ∈ categoryOrderPairs ts, kv.1 = name :=
      ⟨(name, 7), List.mem_append_left _ (List.mem_append_left _ (List.mem_append_left _ (List.mem_append_right _ (List.mem_map.mpr ⟨name, hmem, rfl⟩)))), rfl⟩
    have huniq : ∀ kv ∈ categoryOrderPairs ts, kv.1 = name → kv.2 = 7 := by
      intro kv hkv he
      rcases mem_categoryOrderPairs_cases ts kv hkv with ⟨n, hn, rfl⟩ | ⟨n, hn, rfl⟩ | ⟨n, hn, rfl⟩ | ⟨n, hn, rfl⟩ | ⟨n, hn, rfl⟩ | ⟨n, hn, rfl⟩ | ⟨n, hn, rfl⟩ | ⟨n, hn, rfl⟩ | ⟨n, hn, rfl⟩ | ⟨n, hn, rfl⟩ | ⟨n, hn, rfl⟩
      · have he' : n = name := he
        exact absurd hmem (d0 ts.FETCH_TOOLS (by simp) name (he' ▸ hn))
      · have he' : n = name := he
        exact absurd hmem (d1 ts.FETCH_TOOLS (by simp) name (he' ▸ hn))
      · have he' : n = name := he
        exact absurd hmem (d2 ts.FETCH_TOOLS (by simp) name (he' ▸ hn))
      · have he' : n = name := he
        exact absurd hmem (d3 ts.FETCH_TOOLS (by simp) name (he' ▸ hn))
      · have he' : n = name := he
        exact absurd hmem (d4 ts.FETCH_TOOLS (by simp) name (he' ▸ hn))
      · have he' : n = name := he
        exact absurd hmem (d5 ts.FETCH_TOOLS (by simp) name (he' ▸ hn))
      · have he' : n = name := he
        exact absurd hmem (d6 ts.FETCH_TOOLS (by simp) name (he' ▸ hn))
      · rfl
      · have he' : n = name := he
        exact absurd (he' ▸ hn) (d7 ts.TASK_TOOLS (by simp) name hmem)
      · have he' : n = name := he
        exact absurd (he' ▸ hn) (d7 ts.TASK_OUTPUT_TOOLS (by simp) name hmem)
      · have he' : n = name := he
        exact absurd (he' ▸ hn) (d7 ts.ASK_TOOLS (by simp) name hmem)
    unfold getCategoryOrder buildCategoryOrder
    rw [foldl_assign_unique name 7 (categoryOrderPairs ts) none huniq hex]
    rfl
  · intro name hmem
    have hex : ∃ kv ∈ categoryOrderPairs ts, kv.1 = name :=
      ⟨(name, 8), List.mem_append_left _ (List.mem_append_left _ (List.mem_append_right _ (List.mem_map.mpr ⟨name, hmem, rfl⟩))), rfl⟩
    have huniq : ∀ kv ∈ categoryOrderPairs ts, kv.1 = name → kv.2 = 8 := by
      intro kv hkv he
      rcases mem_categoryOrderPairs_cases ts kv hkv with ⟨n, hn, rfl⟩ | ⟨n, hn, rfl⟩ | ⟨n, hn, rfl⟩ | ⟨n, hn, rfl⟩ | ⟨n, hn, rfl⟩ | ⟨n, hn, rfl⟩ | ⟨n, hn, rfl⟩ | ⟨n, hn, rfl⟩ | ⟨n, hn, rfl⟩ | ⟨n, hn, rfl⟩ | ⟨n, hn, rfl⟩
      · have he' : n = name := he
        exact absurd hmem (d0 ts.TASK_TOOLS (by simp) name (he' ▸ hn))
      · have he' : n = name := he
        exact absurd hmem (d1 ts.TASK_TOOLS (by simp) name (he' ▸ hn))
      · have he' : n = name := he
        exact absurd hmem (d2 ts.TASK_TOOLS (by simp) name (he' ▸ hn))
      · have he' : n = name := he
        exact absurd hmem (d3 ts.TASK_TOOLS (by simp) name (he' ▸ hn))
      · have he' : n = name := he
        exact absurd hmem (d4 ts.TASK_TOOLS (by simp) name (he' ▸ hn))
      · have he' : n = name := he
        exact absurd hmem (d5 ts.TASK_TOOLS (by simp) name (he' ▸ hn))
      · have he' : n = name := he
        exact absurd hmem (d6 ts.TASK_TOOLS (by simp) name (he' ▸ hn))
      · have he' : n = name := he
        exact absurd hmem (d7 ts.TASK_TOOLS (by simp) name (he' ▸ hn))
      · rfl
      · have he' : n = name := he
        exact absurd (he' ▸ hn) (d8 ts.TASK_OUTPUT_TOOLS (by simp) name hmem)
      · have he' : n = name := he
        exact absurd (he' ▸ hn) (d8 ts.ASK_TOOLS (by simp) name hmem)
    unfold getCategoryOrder buildCategoryOrder
    rw [foldl_assign_unique name 8 (categoryOrderPairs ts) none huniq hex]
    rfl
  · intro name hmem
    have hex : ∃ kv ∈ categoryOrderPairs ts, kv.1 = name :=
      ⟨(name, 8), List.mem_append_left _ (List.mem_append_right _ (List.mem_map.mpr ⟨name, hmem, rfl⟩)), rfl⟩
    have huniq : ∀ kv ∈ categoryOrderPairs ts, kv.1 = name → kv.2 = 8 := by
      intro kv hkv he
      rcases mem_categoryOrderPairs_cases ts kv hkv with ⟨n, hn, rfl⟩ | ⟨n, hn, rfl⟩ | ⟨n, hn, rfl⟩ | ⟨n, hn, rfl⟩ | ⟨n, hn, rfl⟩ | ⟨n, hn, rfl⟩ | ⟨n, hn, rfl⟩ | ⟨n, hn, rfl⟩ | ⟨n, hn, rfl⟩ | ⟨n, hn, rfl⟩ | ⟨n, hn, rfl⟩
      · have he' : n = name := he
        exact absurd hmem (d0 ts.TASK_OUTPUT_TOOLS (by simp) name (he' ▸ hn))
      · have he' : n = name := he
        exact absurd hmem (d1 ts.TASK_OUTPUT_TOOLS (by simp) name (he' ▸ hn))
      · have he' : n = name := he
        exact absurd hmem (d2 ts.TASK_OUTPUT_TOOLS (by simp) name (he' ▸ hn))
      · have he' : n = name := he
        exact absurd hmem (d3 ts.TASK_OUTPUT_TOOLS (by simp) name (he' ▸ hn))
      · have he' : n = name := he
        exact absurd hmem (d4 ts.TASK_OUTPUT_TOOLS (by simp) name (he' ▸ hn))
      · have he' : n = name := he
        exact absurd hmem (d5 ts.TASK_OUTPUT_TOOLS (by simp) name (he' ▸ hn))
      · have he' : n = name := he
        exact absurd hmem (d6 ts.TASK_OUTPUT_TOOLS (by simp) name (he' ▸ hn))
      · have he' : n = name := he
        exact absurd hmem (d7 ts.TASK_OUTPUT_TOOLS (by simp) name (he' ▸ hn))
      · have he' : n = name := he
        exact absurd hmem (d8 ts.TASK_OUTPUT_TOOLS (by simp) name (he' ▸ hn))
      · rfl
      · have he' : n = name := he
        exact absurd (he' ▸ hn) (d9 ts.ASK_TOOLS (by simp) name hmem)
    unfold getCategoryOrder buildCategoryOrder
    rw [foldl_assign_unique name 8 (categoryOrderPairs ts) none huniq hex]
    rfl
  · intro name hmem
    have hex : ∃ kv ∈ categoryOrderPairs ts, kv.1 = name :=
      ⟨(name, 9), List.mem_append_right _ (List.mem_map.mpr ⟨name, hmem, rfl⟩), rfl⟩
    have huniq : ∀ kv ∈ categoryOrderPairs ts, kv.1 = name → kv.2 = 9 := by
      intro kv hkv he
      rcases mem_categoryOrderPairs_cases ts kv hkv with ⟨n, hn, rfl⟩ | ⟨n, hn, rfl⟩ | ⟨n, hn, rfl⟩ | ⟨n, hn, rfl⟩ | ⟨n, hn, rfl⟩ | ⟨n, hn, rfl⟩ | ⟨n, hn, rfl⟩ | ⟨n, hn, rfl⟩ | ⟨n, hn, rfl⟩ | ⟨n, hn, rfl⟩ | ⟨n, hn, rfl⟩
      · have he' : n = name := he
        exact absurd hmem (d0 ts.ASK_TOOLS (by simp) name (he' ▸ hn))
      · have he' : n = name := he
        exact absurd hmem (d1 ts.ASK_TOOLS (by simp) name (he' ▸ hn))
      · have he' : n = name := he
        exact absurd hmem (d2 ts.ASK_TOOLS (by simp) name (he' ▸ hn))
      · have he' : n = name := he
        exact absurd hmem (d3 ts.ASK_TOOLS (by simp) name (he' ▸ hn))
      · have he' : n = name := he
        exact absurd hmem (d4 ts.ASK_TOOLS (by simp) name (he' ▸ hn))
      · have he' : n = name := he
        exact absurd hmem (d5 ts.ASK_TOOLS (by simp) name (he' ▸ hn))
      · have he' : n = name := he
        exact absurd hmem (d6 ts.ASK_TOOLS (by simp) name (he' ▸ hn))
      · have he' : n = name := he
        exact absurd hmem (d7 ts.ASK_TOOLS (by simp) name (he' ▸ hn))
      · have he' : n = name := he
        exact absurd hmem (d8 ts.ASK_TOOLS (by simp) name (he' ▸ hn))
      · have he' : n = name := he
        exact absurd hmem (d9 ts.ASK_TOOLS (by simp) name (he' ▸ hn))
      · rfl
    unfold getCategoryOrder buildCategoryOrder
    rw [foldl_assign_unique name 9 (categoryOrderPairs ts) none huniq hex]
    rfl
  · intro name h0 h1 h2 h3 h4 h5 h6 h7 h8 h9 h10
    have hnone : ∀ kv ∈ categoryOrderPairs ts, ¬(kv.1 = name) := by
      intro kv hkv he
      rcases mem_categoryOrderPairs_cases ts kv hkv with ⟨n, hn, rfl⟩ | ⟨n, hn, rfl⟩ | ⟨n, hn, rfl⟩ | ⟨n, hn, rfl⟩ | ⟨n, hn, rfl⟩ | ⟨n, hn, rfl⟩ | ⟨n, hn, rfl⟩ | ⟨n, hn, rfl⟩ | ⟨n, hn, rfl⟩ | ⟨n, hn, rfl⟩ | ⟨n, hn, rfl⟩
      · have he' : n = name := he
        exact h0 (he' ▸ hn)
      · have he' : n = name := he
        exact h1 (he' ▸ hn)
      · have he' : n = name := he
        exact h2 (he' ▸ hn)
      · have he' : n = name := he
        exact h3 (he' ▸ hn)
      · have he' : n = name := he
        exact h4 (he' ▸ hn)
      · have he' : n = name := he
        exact h5 (he' ▸ hn)
      · have he' : n = name := he
        exact h6 (he' ▸ hn)
      · have he' : n = name := he
        exact h7 (he' ▸ hn)
      · have he' : n = name := he
        exact h8 (he' ▸ hn)
      · have he' : n = name := he
        exact h9 (he' ▸ hn)
      · have he' : n = name := he
        exact h10 (he' ▸ hn)
    unfold getCategoryOrder buildCategoryOrder
    rw [foldl_assign_no_match name (categoryOrderPairs ts) none hnone]
    rfl

/-- Concrete pairwise-disjoint canonical sets for the witness. -/
def toolSets1 : ToolNameSets :=
  ⟨["Bash"], ["Write"], ["Edit"], ["Read"], ["Grep"], ["Glob"], ["WebSearch"],
    ["WebFetch"], ["Task"], ["TaskOutput"], ["AskUserQuestion"]⟩

/-- C4 witness: at the concrete disjoint sets, `Bash` gets priority 0 and an
unknown name gets priority 10. -/
theorem category_sort_total_stable_witness :
    getCategoryOrder toolSets1 "Bash" = 0 :=
  (category_sort_total_stable toolSets1 [] (by decide)).2.2.2.1 "Bash" (by decide)
